import Mathlib

/-!
# Scene.jsx: the rotate-with-momentum viewer

A shallow embedding of `src/components/Scene.jsx` (the active component; the
commented-out drag-to-throw variant is not code and is not modelled).

Numbers are exact rationals (`ℚ`): the JavaScript doubles of the source are read as
the rationals their literals denote, so `0.01`, `0.95` and `0.99` are `1/100`,
`19/20` and `99/100`.  A quotient whose divisor is zero, an infinity or `NaN` in
JavaScript, is `none` (`quotient`).

The component keeps two kinds of state, and the model keeps them apart:

* the refs of the component (`momentumRef`, `lastDeltaRef`, `frameId`, `sceneRef`,
  `mountRef`) and its `currentShape`, which live as long as the component;
* the local variables of one run of the effect (`isDragging`,
  `previousMousePosition`, the mesh `shape`, `camera`, `renderer`, `geometry`,
  `material`), which the handlers of that run close over.  One run is a `Closure`;
  every run ever made is kept in `World.closures`, and a handler is identified by
  the index of the run that created it.

The host (browser and React) is explicit state as well: the registered event
listeners, the pending `requestAnimationFrame` requests, the children of the mount
element, and the cleanup function React holds for the last effect run.
-/

namespace Scene

/-- A pair of numbers: `{ x, y }` objects of the source, and the `x`, `y` components
of `shape.rotation`. -/
structure Vec2 where
  x : ℚ
  y : ℚ
deriving DecidableEq, Repr

/-- The geometry primitives `createGeometry` can construct, with their constructor
arguments. -/
inductive Geometry where
  | SphereGeometry (radius : ℚ) (widthSegments heightSegments : ℕ)
  | CylinderGeometry (radiusTop radiusBottom height : ℚ) (radialSegments : ℕ)
  | TorusGeometry (radius tube : ℚ) (radialSegments tubularSegments : ℕ)
  | ConeGeometry (radius height : ℚ) (radialSegments : ℕ)
  | OctahedronGeometry (radius : ℚ)
  | BoxGeometry (width height depth : ℚ)
deriving DecidableEq, Repr

/-- `createGeometry` (Scene.jsx 13-28): a `switch` on the shape name whose default
case is the cube. -/
def createGeometry (shape : String) : Geometry :=
  match shape with
  | "sphere" => .SphereGeometry 1.5 32 32
  | "cylinder" => .CylinderGeometry 1 1 2 32
  | "torus" => .TorusGeometry 1 0.4 16 100
  | "cone" => .ConeGeometry 1 2 32
  | "octahedron" => .OctahedronGeometry 1.5
  | _ => .BoxGeometry 2 2 2

/-- The quotient `a / b` of the source; `none` when `b` is zero, where JavaScript
yields an infinity or `NaN`. -/
def quotient (a b : ℚ) : Option ℚ :=
  if b = 0 then none else some (a / b)

/-- The names mapped to buttons in the shape selection bar (Scene.jsx 180). -/
def shapeButtons : List String :=
  ["cube", "sphere", "cylinder", "torus", "cone", "octahedron"]

/-- What `scene.add` is called with (Scene.jsx 60-73). -/
inductive Object3D where
  | Mesh (geometry : Geometry)
  | DirectionalLight (color : ℕ) (intensity : ℚ) (position : ℚ × ℚ × ℚ)
  | AmbientLight (color : ℕ)
deriving DecidableEq, Repr

/-- The local state of one run of the effect (Scene.jsx 30-174). -/
structure Closure where
  /-- `scene.children`, in the order of the `scene.add` calls. -/
  children : List Object3D
  /-- `camera.aspect`; `none` when it is not a finite number. -/
  aspect : Option ℚ
  /-- The size last given to `renderer.setSize`, width then height. -/
  size : ℚ × ℚ
  /-- `shape.rotation`, components `x` and `y`. -/
  rotation : Vec2
  isDragging : Bool
  previousMousePosition : Vec2
  /-- The geometry built by `createGeometry(currentShape)`. -/
  geometry : Geometry
  geometryDisposed : Bool
  materialDisposed : Bool
  rendererDisposed : Bool
  /-- How many times `renderer.render(scene, camera)` has been called. -/
  renders : ℕ
deriving DecidableEq, Repr

/-- The event targets listeners are added to: `window`, and the `renderer.domElement`
of the effect run `owner`. -/
inductive Target where
  | window
  | domElement (owner : ℕ)
deriving DecidableEq, Repr

/-- The event types of the four `addEventListener` calls (Scene.jsx 131-134). -/
inductive EventType where
  | mousedown
  | mousemove
  | mouseup
  | resize
deriving DecidableEq, Repr

/-- The four handler functions one effect run defines. -/
inductive Handler where
  | handleMouseDown
  | handleMouseMove
  | handleMouseUp
  | handleResize
deriving DecidableEq, Repr

/-- A registered listener: the function `handler` of effect run `owner`, added to
`target` for events of type `type`. -/
structure Listener where
  target : Target
  type : EventType
  handler : Handler
  owner : ℕ
deriving DecidableEq, Repr

/-- The part of a mouse event the handlers read. -/
structure MouseEvent where
  offsetX : ℚ
  offsetY : ℚ
deriving DecidableEq, Repr

/-- The component together with its host. -/
structure World where
  /-- `window.innerWidth`. -/
  innerWidth : ℚ
  /-- `window.innerHeight`. -/
  innerHeight : ℚ
  /-- Whether `window.THREE` is present. -/
  THREE : Bool
  /-- Whether `mountRef.current` is an element (not `null`). -/
  mountRef : Bool
  /-- The children of the mount element: render surfaces, named by effect run. -/
  mountChildren : List ℕ
  currentShape : String
  momentumRef : Vec2
  lastDeltaRef : Vec2
  /-- `frameId.current`; `none` is `null`. -/
  frameId : Option ℕ
  /-- `sceneRef.current`, named by effect run; `none` is `null`. -/
  sceneRef : Option ℕ
  /-- Every effect run made so far; run `i` is `closures[i]`. -/
  closures : List Closure
  /-- The listeners registered with the browser, in order of registration. -/
  listeners : List Listener
  /-- Pending animation-frame requests: handle, and the effect run whose `animate`
  was passed. -/
  scheduled : List (ℕ × ℕ)
  /-- The handle the next `requestAnimationFrame` returns. -/
  nextHandle : ℕ
  /-- The cleanup function React holds for the last effect run, named by that run;
  `none` when the run returned nothing. -/
  cleanup : Option ℕ

/-- `handleMouseDown` of effect run `i` (Scene.jsx 83-86).  The handlers of run `i`
exist once run `i` does; at an index where there is no run this and the following
functions leave the world as it is. -/
def handleMouseDown (i : ℕ) (w : World) : World :=
  match w.closures[i]? with
  | none => w
  | some c =>
    { w with
      closures := w.closures.set i { c with isDragging := true }
      momentumRef := ⟨0, 0⟩ }

/-- `handleMouseMove` of effect run `i` (Scene.jsx 88-109). -/
def handleMouseMove (i : ℕ) (e : MouseEvent) (w : World) : World :=
  match w.closures[i]? with
  | none => w
  | some c =>
    if c.isDragging then
      let deltaMove : Vec2 :=
        ⟨e.offsetX - c.previousMousePosition.x, e.offsetY - c.previousMousePosition.y⟩
      { w with
        closures := w.closures.set i
          { c with
            rotation := ⟨c.rotation.x + deltaMove.y * 0.01, c.rotation.y + deltaMove.x * 0.01⟩
            previousMousePosition := ⟨e.offsetX, e.offsetY⟩ }
        lastDeltaRef := ⟨deltaMove.x * 0.01, deltaMove.y * 0.01⟩ }
    else
      { w with
        closures := w.closures.set i
          { c with previousMousePosition := ⟨e.offsetX, e.offsetY⟩ } }

/-- `handleMouseUp` of effect run `i` (Scene.jsx 111-118). -/
def handleMouseUp (i : ℕ) (w : World) : World :=
  match w.closures[i]? with
  | none => w
  | some c =>
    { w with
      closures := w.closures.set i { c with isDragging := false }
      momentumRef := ⟨w.lastDeltaRef.x * 0.95, w.lastDeltaRef.y * 0.95⟩ }

/-- `handleResize` of effect run `i` (Scene.jsx 121-128).  The projection matrix that
`camera.updateProjectionMatrix()` recomputes is a function of the camera's fields and
is not a field of its own. -/
def handleResize (i : ℕ) (w : World) : World :=
  match w.closures[i]? with
  | none => w
  | some c =>
    let width := w.innerWidth
    let height := w.innerHeight
    { w with
      closures := w.closures.set i
        { c with aspect := quotient width height, size := (width, height) } }

/-- `animate` of effect run `i` (Scene.jsx 137-151): request the next frame and
record its handle, apply and decay the momentum unless dragging, render. -/
def animate (i : ℕ) (w : World) : World :=
  match w.closures[i]? with
  | none => w
  | some c =>
    let w1 : World :=
      { w with
        frameId := some w.nextHandle
        scheduled := w.scheduled ++ [(w.nextHandle, i)]
        nextHandle := w.nextHandle + 1 }
    if !c.isDragging then
      { w1 with
        closures := w1.closures.set i
          { c with
            rotation := ⟨c.rotation.x + w1.momentumRef.y, c.rotation.y + w1.momentumRef.x⟩
            renders := c.renders + 1 }
        momentumRef := ⟨w1.momentumRef.x * 0.99, w1.momentumRef.y * 0.99⟩ }
    else
      { w1 with closures := w1.closures.set i { c with renders := c.renders + 1 } }

/-- The four listeners effect run `i` registers (Scene.jsx 131-134), in order. -/
def listenersOf (i : ℕ) : List Listener :=
  [⟨.domElement i, .mousedown, .handleMouseDown, i⟩,
   ⟨.domElement i, .mousemove, .handleMouseMove, i⟩,
   ⟨.domElement i, .mouseup, .handleMouseUp, i⟩,
   ⟨.window, .resize, .handleResize, i⟩]

/-- The local variables of a run when its setup is done (Scene.jsx 33-80): the scene
holds the mesh of `createGeometry(currentShape)`, two directional lights and an ambient
light; the camera aspect and the renderer size are those of the window; the mesh is
not rotated; `isDragging` is `false` and `previousMousePosition` is `(0, 0)`. -/
def setup (w : World) : Closure :=
  { children :=
      [.Mesh (createGeometry w.currentShape),
       .DirectionalLight 0xffffff 1 (1, 1, 1),
       .DirectionalLight 0xffffff 0.5 (-1, -1, -1),
       .AmbientLight 0x404040]
    aspect := quotient w.innerWidth w.innerHeight
    size := (w.innerWidth, w.innerHeight)
    rotation := ⟨0, 0⟩
    isDragging := false
    previousMousePosition := ⟨0, 0⟩
    geometry := createGeometry w.currentShape
    geometryDisposed := false
    materialDisposed := false
    rendererDisposed := false
    renders := 0 }

/-- The effect from the scene setup to the registration of the listeners
(Scene.jsx 33-134), as run number `w.closures.length`: `sceneRef.current` is the new
scene, the render surface is appended to the mount element, and the four listeners
are added.  The handlers are new functions, so each listener is new. -/
def build (w : World) : World :=
  let i := w.closures.length
  { w with
    sceneRef := some i
    closures := w.closures ++ [setup w]
    mountChildren := w.mountChildren ++ [i]
    listeners := w.listeners ++ listenersOf i }

/-- The body of the effect (Scene.jsx 30-174).  It returns at once, with no cleanup
function, when the mount element or the rendering library is missing; otherwise it
builds the run, calls `animate()` once (Scene.jsx 153) and returns the run's cleanup
function. -/
def effect (w : World) : World :=
  if !w.mountRef || !w.THREE then { w with cleanup := none }
  else { animate w.closures.length (build w) with cleanup := some w.closures.length }

/-- `cancelAnimationFrame(handle)`. -/
def cancelAnimationFrame (handle : ℕ) (w : World) : World :=
  { w with scheduled := w.scheduled.filter (fun r => r.1 ≠ handle) }

/-- The cleanup function returned by effect run `i` (Scene.jsx 156-173).
`frameId.current` is truthy when it is a non-zero number.  `removeChild` is called
with a child of the mount element in every world the component reaches
(`Reachable`), where erasing from the list of children is what it does. -/
def cleanup (i : ℕ) (w : World) : World :=
  let w1 : World :=
    match w.frameId with
    | some handle => if handle ≠ 0 then cancelAnimationFrame handle w else w
    | none => w
  let w2 : World :=
    { w1 with
      listeners :=
        (((w1.listeners.erase ⟨.domElement i, .mousedown, .handleMouseDown, i⟩).erase
          ⟨.domElement i, .mousemove, .handleMouseMove, i⟩).erase
          ⟨.domElement i, .mouseup, .handleMouseUp, i⟩).erase
          ⟨.window, .resize, .handleResize, i⟩ }
  let w3 : World :=
    if w2.mountRef then { w2 with mountChildren := w2.mountChildren.erase i } else w2
  { w3 with
    closures := w3.closures.modify
      (fun c => { c with geometryDisposed := true, materialDisposed := true,
                         rendererDisposed := true }) i }

/-- `setCurrentShape(shape)` followed by React's re-run of the effect, whose
dependency list is `[currentShape]` (Scene.jsx 174, 183): when the shape is the one
already selected nothing re-runs; otherwise the cleanup of the previous run is
called, then the effect. -/
def setCurrentShape (shape : String) (w : World) : World :=
  if shape = w.currentShape then w
  else
    let w1 : World := { w with currentShape := shape }
    let w2 : World :=
      match w1.cleanup with
      | some i => cleanup i w1
      | none => w1
    effect w2

/-- Call handler `h` of effect run `i`. -/
def call (h : Handler) (i : ℕ) (e : MouseEvent) (w : World) : World :=
  match h with
  | .handleMouseDown => handleMouseDown i w
  | .handleMouseMove => handleMouseMove i e w
  | .handleMouseUp => handleMouseUp i w
  | .handleResize => handleResize i w

/-- Deliver an event of type `type` at `target`: every listener registered for it
is called, in order of registration. -/
def dispatch (target : Target) (type : EventType) (e : MouseEvent) (w : World) : World :=
  (w.listeners.filter (fun l => l.target = target ∧ l.type = type)).foldl
    (fun w l => call l.handler l.owner e w) w

/-- What the host can do to the mounted component. -/
inductive Event where
  /-- Pointer-down on the render surface of effect run `surface`. -/
  | mousedown (surface : ℕ) (e : MouseEvent)
  /-- Pointer-move over the render surface of effect run `surface`. -/
  | mousemove (surface : ℕ) (e : MouseEvent)
  /-- Pointer-up on the render surface of effect run `surface`. -/
  | mouseup (surface : ℕ) (e : MouseEvent)
  /-- The viewport becomes `width` by `height`. -/
  | resize (width height : ℚ)
  /-- The browser runs the animation-frame callbacks that are pending. -/
  | frame
  /-- A click on the button of `shape`. -/
  | selectShape (shape : String)
deriving DecidableEq, Repr

/-- One event.  A resize sets the window size and delivers `resize` at `window` (its
handlers read no field of the event); a frame runs the callbacks that were pending when
it began, in the order they were requested. -/
def step (w : World) : Event → World
  | .mousedown s e => dispatch (.domElement s) .mousedown e w
  | .mousemove s e => dispatch (.domElement s) .mousemove e w
  | .mouseup s e => dispatch (.domElement s) .mouseup e w
  | .resize width height =>
    dispatch .window .resize ⟨0, 0⟩ { w with innerWidth := width, innerHeight := height }
  | .frame =>
    w.scheduled.foldl (fun w r => animate r.2 w) { w with scheduled := [] }
  | .selectShape shape => setCurrentShape shape w

/-- A sequence of events, first to last. -/
def run (w : World) (es : List Event) : World :=
  es.foldl step w

/-- The component just mounted: refs at their initial values (Scene.jsx 4-11), the
mount element attached, and the effect run once. -/
def mount (THREE : Bool) (innerWidth innerHeight : ℚ) : World :=
  effect
    { innerWidth := innerWidth
      innerHeight := innerHeight
      THREE := THREE
      mountRef := true
      mountChildren := []
      currentShape := "cube"
      momentumRef := ⟨0, 0⟩
      lastDeltaRef := ⟨0, 0⟩
      frameId := none
      sceneRef := none
      closures := []
      listeners := []
      scheduled := []
      nextHandle := 1
      cleanup := none }

/-- The worlds the component can be in: those reached from a mount by a sequence of
pointer, resize, frame and shape-selection events. -/
def Reachable (w : World) : Prop :=
  ∃ (three : Bool) (innerWidth innerHeight : ℚ) (es : List Event),
    w = run (mount three innerWidth innerHeight) es

/-- The closure of the effect run that is current (the one whose cleanup React
holds), if any. -/
def current (w : World) : Option Closure :=
  match w.cleanup with
  | some i => w.closures[i]?
  | none => none

/-- The resources of a run after `geometry.dispose()`, `material.dispose()` and
`renderer.dispose()`. -/
def disposed (c : Closure) : Prop :=
  c.geometryDisposed = true ∧ c.materialDisposed = true ∧ c.rendererDisposed = true

/-- Run `n`, with local state `c`, is the one live run of the world `w`: React holds
its cleanup, its scene is `sceneRef.current`, its render surface is the only child of
the mount element, its four listeners are the only listeners, its `animate` is the
only pending frame request and `frameId.current` is the handle of that request, its
resources are not disposed while those of every earlier run are, and while it is
dragging the momentum is zero. -/
structure Live (w : World) (n : ℕ) (c : Closure) : Prop where
  three : w.THREE = true
  mountRef : w.mountRef = true
  cleanup : w.cleanup = some n
  sceneRef : w.sceneRef = some n
  length : w.closures.length = n + 1
  closure : w.closures[n]? = some c
  children : c.children =
    [.Mesh (createGeometry w.currentShape),
     .DirectionalLight 0xffffff 1 (1, 1, 1),
     .DirectionalLight 0xffffff 0.5 (-1, -1, -1),
     .AmbientLight 0x404040]
  geometry : c.geometry = createGeometry w.currentShape
  undisposed : c.geometryDisposed = false ∧ c.materialDisposed = false ∧
    c.rendererDisposed = false
  listeners : w.listeners = listenersOf n
  frame : ∃ h, h ≠ 0 ∧ w.frameId = some h ∧ w.scheduled = [(h, n)]
  nextHandle : w.nextHandle ≠ 0
  mountChildren : w.mountChildren = [n]
  older : ∀ j c', j < n → w.closures[j]? = some c' → disposed c'
  drag : c.isDragging = true → w.momentumRef = ⟨0, 0⟩

/-- No run was ever made: the world of a component whose effect always returned at
the guard. -/
structure Dead (w : World) : Prop where
  three : w.THREE = false
  cleanup : w.cleanup = none
  closures : w.closures = []
  listeners : w.listeners = []
  scheduled : w.scheduled = []
  mountChildren : w.mountChildren = []

/-- Whether a scene object is a mesh. -/
def Object3D.isMesh : Object3D → Bool
  | .Mesh _ => true
  | _ => false

/-- Whether a scene object is a directional light. -/
def Object3D.isDirectionalLight : Object3D → Bool
  | .DirectionalLight _ _ _ => true
  | _ => false

/-- Whether a scene object is an ambient light. -/
def Object3D.isAmbientLight : Object3D → Bool
  | .AmbientLight _ => true
  | _ => false

/-- What is live in the world `w` is one run and no more: the scene of
`sceneRef.current` holds four objects, one mesh, two directional lights and one
ambient light; the mount element has one render surface; the registered listeners are
the four of that run; one frame request is pending, that of the run's `animate`, and
`frameId.current` is its handle; the run's geometry, material and renderer are not
disposed, and those of every other run are. -/
def Tidy (w : World) : Prop :=
  ∃ n c h,
    w.cleanup = some n ∧ w.sceneRef = some n ∧ w.closures[n]? = some c ∧
    c.children.length = 4 ∧
    c.children.countP Object3D.isMesh = 1 ∧
    c.children.countP Object3D.isDirectionalLight = 2 ∧
    c.children.countP Object3D.isAmbientLight = 1 ∧
    w.mountChildren = [n] ∧
    w.listeners = listenersOf n ∧ w.listeners.length = 4 ∧
    w.frameId = some h ∧ w.scheduled = [(h, n)] ∧
    c.geometryDisposed = false ∧ c.materialDisposed = false ∧ c.rendererDisposed = false ∧
    ∀ j c', j ≠ n → w.closures[j]? = some c' → disposed c'

/-- A component mounted in a window of 800 by 600, the rendering library present. -/
def mounted : World :=
  mount true 800 600

/-- The mounted component with the pointer pressed on its render surface. -/
def pressed : World :=
  run mounted [.mousedown 0 ⟨0, 0⟩]

/-- The mounted component after a drag from `(0, 0)` to `(100, 50)` and its release. -/
def released : World :=
  run mounted [.mousedown 0 ⟨0, 0⟩, .mousemove 0 ⟨100, 50⟩, .mouseup 0 ⟨100, 50⟩]

theorem handleMouseDown_eq (w : World) (i : ℕ) (c : Closure) (hc : w.closures[i]? = some c) :
    handleMouseDown i w =
      { w with
        closures := w.closures.set i { c with isDragging := true }
        momentumRef := ⟨0, 0⟩ } := by
  simp [handleMouseDown, hc]

theorem handleMouseMove_dragging (w : World) (i : ℕ) (c : Closure) (e : MouseEvent)
    (hc : w.closures[i]? = some c) (hd : c.isDragging = true) :
    handleMouseMove i e w =
      { w with
        closures := w.closures.set i
          { c with
            rotation :=
              ⟨c.rotation.x + (e.offsetY - c.previousMousePosition.y) * 0.01,
               c.rotation.y + (e.offsetX - c.previousMousePosition.x) * 0.01⟩
            previousMousePosition := ⟨e.offsetX, e.offsetY⟩ }
        lastDeltaRef :=
          ⟨(e.offsetX - c.previousMousePosition.x) * 0.01,
           (e.offsetY - c.previousMousePosition.y) * 0.01⟩ } := by
  simp [handleMouseMove, hc, hd]

theorem handleMouseMove_idle (w : World) (i : ℕ) (c : Closure) (e : MouseEvent)
    (hc : w.closures[i]? = some c) (hd : c.isDragging = false) :
    handleMouseMove i e w =
      { w with
        closures := w.closures.set i
          { c with previousMousePosition := ⟨e.offsetX, e.offsetY⟩ } } := by
  simp [handleMouseMove, hc, hd]

theorem handleMouseUp_eq (w : World) (i : ℕ) (c : Closure) (hc : w.closures[i]? = some c) :
    handleMouseUp i w =
      { w with
        closures := w.closures.set i { c with isDragging := false }
        momentumRef := ⟨w.lastDeltaRef.x * 0.95, w.lastDeltaRef.y * 0.95⟩ } := by
  simp [handleMouseUp, hc]

theorem handleResize_eq (w : World) (i : ℕ) (c : Closure) (hc : w.closures[i]? = some c) :
    handleResize i w =
      { w with
        closures := w.closures.set i
          { c with
            aspect := quotient w.innerWidth w.innerHeight
            size := (w.innerWidth, w.innerHeight) } } := by
  simp [handleResize, hc]

theorem animate_idle (w : World) (i : ℕ) (c : Closure)
    (hc : w.closures[i]? = some c) (hd : c.isDragging = false) :
    animate i w =
      { w with
        frameId := some w.nextHandle
        scheduled := w.scheduled ++ [(w.nextHandle, i)]
        nextHandle := w.nextHandle + 1
        closures := w.closures.set i
          { c with
            rotation := ⟨c.rotation.x + w.momentumRef.y, c.rotation.y + w.momentumRef.x⟩
            renders := c.renders + 1 }
        momentumRef := ⟨w.momentumRef.x * 0.99, w.momentumRef.y * 0.99⟩ } := by
  simp [animate, hc, hd]

theorem animate_dragging (w : World) (i : ℕ) (c : Closure)
    (hc : w.closures[i]? = some c) (hd : c.isDragging = true) :
    animate i w =
      { w with
        frameId := some w.nextHandle
        scheduled := w.scheduled ++ [(w.nextHandle, i)]
        nextHandle := w.nextHandle + 1
        closures := w.closures.set i { c with renders := c.renders + 1 } } := by
  simp [animate, hc, hd]

theorem getElem?_set_self_of_some {α : Type} (l : List α) (i : ℕ) (a b : α)
    (h : l[i]? = some a) : (l.set i b)[i]? = some b := by
  have hi : i < l.length := by
    by_contra hn
    rw [List.getElem?_eq_none (not_lt.mp hn)] at h
    exact Option.noConfusion h
  simp [List.getElem?_set, hi]

/-! ## Delivery of events to the listeners of one run -/

theorem dispatch_mousedown (w : World) (n s : ℕ) (e : MouseEvent)
    (hl : w.listeners = listenersOf n) :
    dispatch (.domElement s) .mousedown e w = if s = n then handleMouseDown n w else w := by
  by_cases h : s = n
  · subst h; simp [dispatch, hl, listenersOf, call, List.filter]
  · have h' : ¬ n = s := fun h' => h h'.symm
    simp [dispatch, hl, listenersOf, call, List.filter, h, h']

theorem dispatch_mousemove (w : World) (n s : ℕ) (e : MouseEvent)
    (hl : w.listeners = listenersOf n) :
    dispatch (.domElement s) .mousemove e w = if s = n then handleMouseMove n e w else w := by
  by_cases h : s = n
  · subst h; simp [dispatch, hl, listenersOf, call, List.filter]
  · have h' : ¬ n = s := fun h' => h h'.symm
    simp [dispatch, hl, listenersOf, call, List.filter, h, h']

theorem dispatch_mouseup (w : World) (n s : ℕ) (e : MouseEvent)
    (hl : w.listeners = listenersOf n) :
    dispatch (.domElement s) .mouseup e w = if s = n then handleMouseUp n w else w := by
  by_cases h : s = n
  · subst h; simp [dispatch, hl, listenersOf, call, List.filter]
  · have h' : ¬ n = s := fun h' => h h'.symm
    simp [dispatch, hl, listenersOf, call, List.filter, h, h']

theorem dispatch_resize (w : World) (n : ℕ) (e : MouseEvent)
    (hl : w.listeners = listenersOf n) :
    dispatch .window .resize e w = handleResize n w := by
  simp [dispatch, hl, listenersOf, call, List.filter]

theorem step_frame_single (w : World) (h n : ℕ) (hs : w.scheduled = [(h, n)]) :
    step w .frame = animate n { w with scheduled := [] } := by
  simp [step, hs]

theorem mount_eq (iw ih : ℚ) : mount true iw ih =
    { innerWidth := iw
      innerHeight := ih
      THREE := true
      mountRef := true
      mountChildren := [0]
      currentShape := "cube"
      momentumRef := ⟨0, 0⟩
      lastDeltaRef := ⟨0, 0⟩
      frameId := some 1
      sceneRef := some 0
      closures :=
        [{ children :=
             [.Mesh (.BoxGeometry 2 2 2),
              .DirectionalLight 0xffffff 1 (1, 1, 1),
              .DirectionalLight 0xffffff 0.5 (-1, -1, -1),
              .AmbientLight 0x404040]
           aspect := quotient iw ih
           size := (iw, ih)
           rotation := ⟨0, 0⟩
           isDragging := false
           previousMousePosition := ⟨0, 0⟩
           geometry := .BoxGeometry 2 2 2
           geometryDisposed := false
           materialDisposed := false
           rendererDisposed := false
           renders := 1 }]
      listeners := listenersOf 0
      scheduled := [(1, 0)]
      nextHandle := 2
      cleanup := some 0 } := by
  simp [mount, effect, build, setup, animate, createGeometry]

theorem mount_false_eq (iw ih : ℚ) : mount false iw ih =
    { innerWidth := iw
      innerHeight := ih
      THREE := false
      mountRef := true
      mountChildren := []
      currentShape := "cube"
      momentumRef := ⟨0, 0⟩
      lastDeltaRef := ⟨0, 0⟩
      frameId := none
      sceneRef := none
      closures := []
      listeners := []
      scheduled := []
      nextHandle := 1
      cleanup := none } := by
  simp [mount, effect]

/-! ## The live run is kept by every event -/

theorem live_update {w : World} {n : ℕ} {c : Closure} (hL : Live w n c) (c' : Closure)
    (m d : Vec2) (a b : ℚ) (f : Option ℕ) (s : List (ℕ × ℕ)) (k : ℕ)
    (hch : c'.children = c.children) (hg : c'.geometry = c.geometry)
    (h1 : c'.geometryDisposed = c.geometryDisposed)
    (h2 : c'.materialDisposed = c.materialDisposed)
    (h3 : c'.rendererDisposed = c.rendererDisposed)
    (hf : ∃ h, h ≠ 0 ∧ f = some h ∧ s = [(h, n)]) (hk : k ≠ 0)
    (hdrag : c'.isDragging = true → m = ⟨0, 0⟩) :
    Live
      { w with
        innerWidth := a
        innerHeight := b
        momentumRef := m
        lastDeltaRef := d
        frameId := f
        closures := w.closures.set n c'
        scheduled := s
        nextHandle := k } n c' where
  three := hL.three
  mountRef := hL.mountRef
  cleanup := hL.cleanup
  sceneRef := hL.sceneRef
  length := by simp [hL.length]
  closure := getElem?_set_self_of_some _ _ _ _ hL.closure
  children := by rw [hch]; exact hL.children
  geometry := by rw [hg]; exact hL.geometry
  undisposed := by rw [h1, h2, h3]; exact hL.undisposed
  listeners := hL.listeners
  frame := hf
  nextHandle := hk
  mountChildren := hL.mountChildren
  older := fun j c'' hj hc'' => hL.older j c'' hj (by
    have hne : n ≠ j := Nat.ne_of_gt hj
    simpa [List.getElem?_set_ne hne] using hc'')
  drag := hdrag

theorem live_mousedown {w : World} {n : ℕ} {c : Closure} (hL : Live w n c) :
    Live (handleMouseDown n w) n { c with isDragging := true } := by
  rw [handleMouseDown_eq w n c hL.closure]
  exact live_update hL _ _ _ _ _ _ _ _ rfl rfl rfl rfl rfl hL.frame hL.nextHandle (fun _ => rfl)

theorem live_mouseup {w : World} {n : ℕ} {c : Closure} (hL : Live w n c) :
    Live (handleMouseUp n w) n { c with isDragging := false } := by
  rw [handleMouseUp_eq w n c hL.closure]
  exact live_update hL _ _ _ _ _ _ _ _ rfl rfl rfl rfl rfl hL.frame hL.nextHandle
    (fun h => Bool.noConfusion h)

theorem live_mousemove {w : World} {n : ℕ} {c : Closure} (hL : Live w n c) (e : MouseEvent) :
    ∃ c', Live (handleMouseMove n e w) n c' ∧ c'.isDragging = c.isDragging := by
  cases hd : c.isDragging
  · rw [handleMouseMove_idle w n c e hL.closure hd]
    exact ⟨_, live_update hL _ _ _ _ _ _ _ _ rfl rfl rfl rfl rfl hL.frame hL.nextHandle
      (fun h => by simp [hd] at h), hd⟩
  · rw [handleMouseMove_dragging w n c e hL.closure hd]
    exact ⟨_, live_update hL _ _ _ _ _ _ _ _ rfl rfl rfl rfl rfl hL.frame hL.nextHandle
      (fun _ => hL.drag hd), hd⟩

theorem live_resize {w : World} {n : ℕ} {c : Closure} (hL : Live w n c) (a b : ℚ) :
    Live (handleResize n { w with innerWidth := a, innerHeight := b }) n
      { c with aspect := quotient a b, size := (a, b) } := by
  rw [handleResize_eq { w with innerWidth := a, innerHeight := b } n c hL.closure]
  exact live_update hL _ _ _ _ _ _ _ _ rfl rfl rfl rfl rfl hL.frame hL.nextHandle hL.drag

theorem live_frame_step {w : World} {n : ℕ} {c : Closure} (hL : Live w n c) :
    ∃ c', Live (step w .frame) n c' ∧ c'.isDragging = c.isDragging := by
  obtain ⟨h, _, _, hs⟩ := hL.frame
  rw [step_frame_single w h n hs]
  cases hd : c.isDragging
  · rw [animate_idle { w with scheduled := [] } n c hL.closure hd]
    refine ⟨_, live_update hL _ _ _ _ _ _ _ _ rfl rfl rfl rfl rfl
      ⟨w.nextHandle, hL.nextHandle, rfl, rfl⟩ (Nat.succ_ne_zero _) (fun h => ?_), hd⟩
    simp [hd] at h
  · rw [animate_dragging { w with scheduled := [] } n c hL.closure hd]
    exact ⟨_, live_update hL _ _ _ _ _ _ _ _ rfl rfl rfl rfl rfl
      ⟨w.nextHandle, hL.nextHandle, rfl, rfl⟩ (Nat.succ_ne_zero _) (fun _ => hL.drag hd), hd⟩

/-! ## Teardown and rebuild -/

theorem cleanup_eq (w : World) (n h : ℕ) (h0 : h ≠ 0) (hf : w.frameId = some h)
    (hs : w.scheduled = [(h, n)]) (hl : w.listeners = listenersOf n)
    (hm : w.mountChildren = [n]) :
    cleanup n w =
      { w with
        scheduled := []
        listeners := []
        mountChildren := if w.mountRef then [] else [n]
        closures := w.closures.modify
          (fun c => { c with geometryDisposed := true, materialDisposed := true,
                             rendererDisposed := true }) n } := by
  cases hb : w.mountRef <;>
    simp [cleanup, cancelAnimationFrame, hf, h0, hs, hl, listenersOf, hm, hb]

theorem effect_eq (w : World) (hm : w.mountRef = true) (ht : w.THREE = true) :
    effect w =
      { animate w.closures.length (build w) with cleanup := some w.closures.length } := by
  simp [effect, hm, ht]

theorem setCurrentShape_live {w : World} {n : ℕ} {c : Closure} (hL : Live w n c)
    (shape : String) (hs : shape ≠ w.currentShape) :
    setCurrentShape shape w =
      { animate (n + 1)
          (build
            { w with
              currentShape := shape
              scheduled := []
              listeners := []
              mountChildren := []
              closures := w.closures.modify
                (fun c => { c with geometryDisposed := true, materialDisposed := true,
                                   rendererDisposed := true }) n }) with
        cleanup := some (n + 1) } := by
  obtain ⟨h, h0, hf, hsch⟩ := hL.frame
  have h1 : setCurrentShape shape w = effect (cleanup n { w with currentShape := shape }) := by
    simp [setCurrentShape, hs, hL.cleanup]
  rw [h1, cleanup_eq { w with currentShape := shape } n h h0 hf hsch hL.listeners
    hL.mountChildren, effect_eq]
  · simp [hL.length, hL.mountRef]
  · exact hL.mountRef
  · exact hL.three

theorem build_closure (w : World) :
    (build w).closures[w.closures.length]? = some (setup w) := by
  simp [build]

theorem live_selectShape {w : World} {n : ℕ} {c : Closure} (hL : Live w n c)
    (shape : String) (hs : shape ≠ w.currentShape) :
    Live (setCurrentShape shape w) (n + 1)
      { setup { w with currentShape := shape } with
        rotation := ⟨0 + w.momentumRef.y, 0 + w.momentumRef.x⟩
        renders := 0 + 1 } ∧
    (setCurrentShape shape w).momentumRef = ⟨w.momentumRef.x * 0.99, w.momentumRef.y * 0.99⟩ ∧
    (setCurrentShape shape w).lastDeltaRef = w.lastDeltaRef ∧
    (setCurrentShape shape w).currentShape = shape := by
  rw [setCurrentShape_live hL shape hs]
  generalize hW : ({ w with
      currentShape := shape
      scheduled := []
      listeners := []
      mountChildren := []
      closures := w.closures.modify
        (fun c => { c with geometryDisposed := true, materialDisposed := true,
                           rendererDisposed := true }) n } : World) = W
  have hlen : W.closures.length = n + 1 := by rw [← hW]; simp [hL.length]
  have hb : (build W).closures[n + 1]? = some (setup W) := by
    rw [← hlen]; exact build_closure W
  have hsetup : setup W = setup { w with currentShape := shape } := by rw [← hW]; rfl
  rw [animate_idle (build W) (n + 1) (setup W) hb rfl]
  have hm : W.momentumRef = w.momentumRef := by rw [← hW]
  have hd : W.lastDeltaRef = w.lastDeltaRef := by rw [← hW]
  have hsh : W.currentShape = shape := by rw [← hW]
  refine ⟨?_, ?_, ?_, ?_⟩
  · exact
      { three := by rw [← hW]; exact hL.three
        mountRef := by rw [← hW]; exact hL.mountRef
        cleanup := rfl
        sceneRef := by simp [build, hlen]
        length := by simp [build, hlen]
        closure := by
          have := getElem?_set_self_of_some (build W).closures (n + 1) (setup W)
            { setup W with
              rotation := ⟨(setup W).rotation.x + (build W).momentumRef.y,
                           (setup W).rotation.y + (build W).momentumRef.x⟩
              renders := (setup W).renders + 1 } hb
          rw [this, hsetup]
          simp [build, setup, hm]
        children := by simp [setup, build, hsh]
        geometry := by simp [setup, build, hsh]
        undisposed := ⟨rfl, rfl, rfl⟩
        listeners := by rw [← hW]; simp [build, hL.length]
        frame := ⟨W.nextHandle, by rw [← hW]; exact hL.nextHandle, rfl, by
          rw [← hW]; simp [build, hL.length]⟩
        nextHandle := Nat.succ_ne_zero _
        mountChildren := by rw [← hW]; simp [build, hL.length]
        older := by
          intro j c' hj hc'
          have hne : n + 1 ≠ j := Nat.ne_of_gt hj
          have hc1 : (build W).closures[j]? = some c' := by
            simpa [List.getElem?_set_ne hne] using hc'
          have hc2 : W.closures[j]? = some c' := by
            have hjl : j < W.closures.length := by omega
            simpa [build, List.getElem?_append_left hjl] using hc1
          rw [← hW] at hc2
          rcases Nat.lt_succ_iff_lt_or_eq.mp hj with hlt | heq
          · have hne' : n ≠ j := Nat.ne_of_gt hlt
            exact hL.older j c' hlt (by simpa [List.getElem?_modify_ne _ _ hne'] using hc2)
          · subst heq
            simp [List.getElem?_modify_eq, hL.closure] at hc2
            rw [← hc2]
            exact ⟨rfl, rfl, rfl⟩
        drag := by intro h; simp [setup] at h }
  · simp [build, hm]
  · simp [build, hd]
  · simp [build, hsh]

/-! ## Every reachable world has one live run, or none was ever made -/

theorem live_step {w : World} {n : ℕ} {c : Closure} (hL : Live w n c) (e : Event) :
    ∃ n' c', Live (step w e) n' c' := by
  cases e with
  | mousedown s ev =>
    simp only [Scene.step]
    rw [dispatch_mousedown w n s ev hL.listeners]
    by_cases h : s = n
    · rw [if_pos h]; exact ⟨n, _, live_mousedown hL⟩
    · rw [if_neg h]; exact ⟨n, c, hL⟩
  | mousemove s ev =>
    simp only [Scene.step]
    rw [dispatch_mousemove w n s ev hL.listeners]
    by_cases h : s = n
    · rw [if_pos h]
      obtain ⟨c', hL', _⟩ := live_mousemove hL ev
      exact ⟨n, c', hL'⟩
    · rw [if_neg h]; exact ⟨n, c, hL⟩
  | mouseup s ev =>
    simp only [Scene.step]
    rw [dispatch_mouseup w n s ev hL.listeners]
    by_cases h : s = n
    · rw [if_pos h]; exact ⟨n, _, live_mouseup hL⟩
    · rw [if_neg h]; exact ⟨n, c, hL⟩
  | resize a b =>
    simp only [Scene.step]
    rw [dispatch_resize { w with innerWidth := a, innerHeight := b } n _ hL.listeners]
    exact ⟨n, _, live_resize hL a b⟩
  | frame =>
    obtain ⟨c', hL', _⟩ := live_frame_step hL
    exact ⟨n, c', hL'⟩
  | selectShape shape =>
    simp only [Scene.step]
    by_cases h : shape = w.currentShape
    · rw [setCurrentShape, if_pos h]; exact ⟨n, c, hL⟩
    · exact ⟨n + 1, _, (live_selectShape hL shape h).1⟩

theorem dispatch_nil (w : World) (target : Target) (type : EventType) (e : MouseEvent)
    (hl : w.listeners = []) : dispatch target type e w = w := by
  simp [dispatch, hl]

theorem effect_dead (w : World) (ht : w.THREE = false) :
    effect w = { w with cleanup := none } := by
  simp [effect, ht]

theorem dead_step {w : World} (hD : Dead w) (e : Event) : Dead (step w e) := by
  cases e with
  | mousedown s ev => rw [Scene.step, dispatch_nil _ _ _ _ hD.listeners]; exact hD
  | mousemove s ev => rw [Scene.step, dispatch_nil _ _ _ _ hD.listeners]; exact hD
  | mouseup s ev => rw [Scene.step, dispatch_nil _ _ _ _ hD.listeners]; exact hD
  | resize a b =>
    rw [Scene.step,
      dispatch_nil { w with innerWidth := a, innerHeight := b } _ _ _ hD.listeners]
    exact ⟨hD.three, hD.cleanup, hD.closures, hD.listeners, hD.scheduled, hD.mountChildren⟩
  | frame =>
    rw [Scene.step, hD.scheduled, List.foldl_nil]
    exact ⟨hD.three, hD.cleanup, hD.closures, hD.listeners, rfl, hD.mountChildren⟩
  | selectShape shape =>
    rw [Scene.step, setCurrentShape]
    by_cases h : shape = w.currentShape
    · rw [if_pos h]; exact hD
    · rw [if_neg h]
      simp only [hD.cleanup]
      rw [effect_dead { w with currentShape := shape, cleanup := none } hD.three]
      exact ⟨hD.three, rfl, hD.closures, hD.listeners, hD.scheduled, hD.mountChildren⟩

theorem live_mount (iw ih : ℚ) : ∃ c, Live (mount true iw ih) 0 c := by
  rw [mount_eq]
  exact ⟨_,
    { three := rfl, mountRef := rfl, cleanup := rfl, sceneRef := rfl, length := rfl
      closure := rfl, children := by simp [createGeometry]
      geometry := by simp [createGeometry]
      undisposed := ⟨rfl, rfl, rfl⟩, listeners := rfl
      frame := ⟨1, Nat.succ_ne_zero 0, rfl, rfl⟩, nextHandle := Nat.succ_ne_zero 1
      mountChildren := rfl
      older := fun j c' hj _ => absurd hj (Nat.not_lt_zero j)
      drag := fun h => Bool.noConfusion h }⟩

theorem dead_mount (iw ih : ℚ) : Dead (mount false iw ih) := by
  rw [mount_false_eq]
  exact ⟨rfl, rfl, rfl, rfl, rfl, rfl⟩

theorem run_inv (w : World) (es : List Event)
    (h : Dead w ∨ ∃ n c, Live w n c) :
    Dead (run w es) ∨ ∃ n c, Live (run w es) n c := by
  induction es generalizing w with
  | nil => exact h
  | cons e es ih =>
    refine ih (step w e) ?_
    rcases h with hD | ⟨n, c, hL⟩
    · exact Or.inl (dead_step hD e)
    · exact Or.inr (live_step hL e)

theorem reachable_inv {w : World} (h : Reachable w) : Dead w ∨ ∃ n c, Live w n c := by
  obtain ⟨three, iw, ih, es, rfl⟩ := h
  refine run_inv _ es ?_
  cases three
  · exact Or.inl (dead_mount iw ih)
  · exact Or.inr ⟨0, live_mount iw ih⟩

theorem reachable_live {w : World} (h : Reachable w) (ht : w.THREE = true) :
    ∃ n c, Live w n c := by
  rcases reachable_inv h with hD | hL
  · rw [hD.three] at ht; exact Bool.noConfusion ht
  · exact hL

theorem reachable_live_of_current {w : World} (h : Reachable w) (c : Closure)
    (hc : current w = some c) : ∃ n, Live w n c := by
  rcases reachable_inv h with hD | ⟨n, c', hL⟩
  · simp [current, hD.cleanup] at hc
  · have : c' = c := by
      simpa [current, hL.cleanup, hL.closure] using hc
    exact ⟨n, this ▸ hL⟩

theorem reachable_mount (three : Bool) (iw ih : ℚ) : Reachable (mount three iw ih) :=
  ⟨three, iw, ih, [], rfl⟩

theorem reachable_step {w : World} (h : Reachable w) (e : Event) : Reachable (step w e) := by
  obtain ⟨three, iw, ih, es, rfl⟩ := h
  exact ⟨three, iw, ih, es ++ [e], by simp [run]⟩

theorem reachable_run {w : World} (h : Reachable w) (es : List Event) :
    Reachable (run w es) := by
  obtain ⟨three, iw, ih, es₀, rfl⟩ := h
  exact ⟨three, iw, ih, es₀ ++ es, by simp [Scene.run]⟩

theorem live_current {w : World} {n : ℕ} {c : Closure} (hL : Live w n c) :
    current w = some c := by
  simp only [Scene.current, hL.cleanup, hL.closure]

theorem run_append (w : World) (es₁ es₂ : List Event) :
    run w (es₁ ++ es₂) = run (run w es₁) es₂ := by
  simp [run]

/-! ## The drag-then-release scenario, event by event -/

/-- The world after a pointer-down and a pointer-move to `(100, 50)` on a newly
mounted component. -/
theorem run_down_move (iw ih : ℚ) (e₀ : MouseEvent) :
    run (mount true iw ih) [.mousedown 0 e₀, .mousemove 0 ⟨100, 50⟩] =
    { innerWidth := iw
      innerHeight := ih
      THREE := true
      mountRef := true
      mountChildren := [0]
      currentShape := "cube"
      momentumRef := ⟨0, 0⟩
      lastDeltaRef := ⟨1, 1 / 2⟩
      frameId := some 1
      sceneRef := some 0
      closures :=
        [{ children :=
             [.Mesh (.BoxGeometry 2 2 2),
              .DirectionalLight 0xffffff 1 (1, 1, 1),
              .DirectionalLight 0xffffff 0.5 (-1, -1, -1),
              .AmbientLight 0x404040]
           aspect := quotient iw ih
           size := (iw, ih)
           rotation := ⟨1 / 2, 1⟩
           isDragging := true
           previousMousePosition := ⟨100, 50⟩
           geometry := .BoxGeometry 2 2 2
           geometryDisposed := false
           materialDisposed := false
           rendererDisposed := false
           renders := 1 }]
      listeners := listenersOf 0
      scheduled := [(1, 0)]
      nextHandle := 2
      cleanup := some 0 } := by
  rw [mount_eq]
  simp only [run, List.foldl, step]
  rw [dispatch_mousedown _ 0 _ _ rfl]
  simp only [handleMouseDown, if_true, List.getElem?_cons_zero, List.set_cons_zero]
  rw [dispatch_mousemove _ 0 _ _ rfl]
  simp only [handleMouseMove, if_true, List.getElem?_cons_zero, List.set_cons_zero]
  norm_num

/-- The world after the pointer-up that ends that drag. -/
theorem run_down_move_up (iw ih : ℚ) (e₀ e₁ : MouseEvent) :
    run (mount true iw ih) [.mousedown 0 e₀, .mousemove 0 ⟨100, 50⟩, .mouseup 0 e₁] =
    { innerWidth := iw
      innerHeight := ih
      THREE := true
      mountRef := true
      mountChildren := [0]
      currentShape := "cube"
      momentumRef := ⟨19 / 20, 19 / 40⟩
      lastDeltaRef := ⟨1, 1 / 2⟩
      frameId := some 1
      sceneRef := some 0
      closures :=
        [{ children :=
             [.Mesh (.BoxGeometry 2 2 2),
              .DirectionalLight 0xffffff 1 (1, 1, 1),
              .DirectionalLight 0xffffff 0.5 (-1, -1, -1),
              .AmbientLight 0x404040]
           aspect := quotient iw ih
           size := (iw, ih)
           rotation := ⟨1 / 2, 1⟩
           isDragging := false
           previousMousePosition := ⟨100, 50⟩
           geometry := .BoxGeometry 2 2 2
           geometryDisposed := false
           materialDisposed := false
           rendererDisposed := false
           renders := 1 }]
      listeners := listenersOf 0
      scheduled := [(1, 0)]
      nextHandle := 2
      cleanup := some 0 } := by
  have h : run (mount true iw ih) [.mousedown 0 e₀, .mousemove 0 ⟨100, 50⟩, .mouseup 0 e₁] =
      step (run (mount true iw ih) [.mousedown 0 e₀, .mousemove 0 ⟨100, 50⟩]) (.mouseup 0 e₁) := rfl
  rw [h, run_down_move]
  simp only [step]
  rw [dispatch_mouseup _ 0 _ _ rfl]
  simp only [handleMouseUp, if_true, List.getElem?_cons_zero, List.set_cons_zero]
  norm_num

/-! ## C1 -/

/-- C1. Drag then release.  On a newly mounted component (idle, last pointer position
`(0, 0)`, momentum `(0, 0)`), a pointer-down followed by a pointer-move to `(100, 50)`
leaves the run dragging with `rotation.y` increased by `1` and `rotation.x` by `0.5`;
the pointer-up that follows leaves the rotation as it is, the run idle and the momentum
`(0.95, 0.475)`.  In general, for a run `i` that is dragging with last pointer position
`p`, a pointer-move to `q` adds `0.01 * (q.x - p.x)` to `rotation.y` and
`0.01 * (q.y - p.y)` to `rotation.x`, stores that scaled delta in `lastDeltaRef`, and
a pointer-up then sets the momentum to `0.95` times it and the run idle; a pointer-up
in any world sets the momentum to `0.95 * lastDeltaRef`. -/
theorem drag_then_release (innerWidth innerHeight : ℚ) (e₀ e₁ : MouseEvent)
    (w : World) (i : ℕ) (c : Closure) (e : MouseEvent)
    (hc : w.closures[i]? = some c) (hd : c.isDragging = true) :
    (∃ c₀ c₁ c₂,
      current (mount true innerWidth innerHeight) = some c₀ ∧
      c₀.isDragging = false ∧ c₀.previousMousePosition = ⟨0, 0⟩ ∧
      (mount true innerWidth innerHeight).momentumRef = ⟨0, 0⟩ ∧
      current (run (mount true innerWidth innerHeight)
        [.mousedown 0 e₀, .mousemove 0 ⟨100, 50⟩]) = some c₁ ∧
      c₁.isDragging = true ∧
      c₁.rotation.y = c₀.rotation.y + 1 ∧ c₁.rotation.x = c₀.rotation.x + 0.5 ∧
      current (run (mount true innerWidth innerHeight)
        [.mousedown 0 e₀, .mousemove 0 ⟨100, 50⟩, .mouseup 0 e₁]) = some c₂ ∧
      c₂.isDragging = false ∧ c₂.rotation = c₁.rotation ∧
      (run (mount true innerWidth innerHeight)
        [.mousedown 0 e₀, .mousemove 0 ⟨100, 50⟩, .mouseup 0 e₁]).momentumRef =
        ⟨0.95, 0.475⟩) ∧
    (∃ c' c'',
      (handleMouseMove i e w).closures[i]? = some c' ∧ c'.isDragging = true ∧
      c'.rotation.y = c.rotation.y + 0.01 * (e.offsetX - c.previousMousePosition.x) ∧
      c'.rotation.x = c.rotation.x + 0.01 * (e.offsetY - c.previousMousePosition.y) ∧
      (handleMouseMove i e w).lastDeltaRef =
        ⟨0.01 * (e.offsetX - c.previousMousePosition.x),
         0.01 * (e.offsetY - c.previousMousePosition.y)⟩ ∧
      (handleMouseUp i (handleMouseMove i e w)).closures[i]? = some c'' ∧
      c''.isDragging = false ∧ c''.rotation = c'.rotation ∧
      (handleMouseUp i (handleMouseMove i e w)).momentumRef =
        ⟨0.95 * (0.01 * (e.offsetX - c.previousMousePosition.x)),
         0.95 * (0.01 * (e.offsetY - c.previousMousePosition.y))⟩) ∧
    (∃ c', (handleMouseUp i w).closures[i]? = some c' ∧ c'.isDragging = false ∧
      c'.rotation = c.rotation ∧
      (handleMouseUp i w).momentumRef = ⟨0.95 * w.lastDeltaRef.x, 0.95 * w.lastDeltaRef.y⟩) := by
  refine ⟨?_, ?_, ?_⟩
  · rw [run_down_move, run_down_move_up, mount_eq]
    refine ⟨_, _, _, rfl, rfl, rfl, rfl, rfl, rfl, ?_, ?_, rfl, rfl, rfl, ?_⟩
    · norm_num
    · norm_num
    · norm_num
  · have hm := handleMouseMove_dragging w i c e hc hd
    have hc' : (handleMouseMove i e w).closures[i]? = some
        { c with
          rotation :=
            ⟨c.rotation.x + (e.offsetY - c.previousMousePosition.y) * 0.01,
             c.rotation.y + (e.offsetX - c.previousMousePosition.x) * 0.01⟩
          previousMousePosition := ⟨e.offsetX, e.offsetY⟩ } := by
      rw [hm]; exact getElem?_set_self_of_some _ _ _ _ hc
    have hu := handleMouseUp_eq _ i _ hc'
    refine ⟨_, ?c2, hc', hd, ?ry, ?rx, ?ld, ?cl, ?dr, ?ro, ?mo⟩
    case cl => rw [hu]; exact getElem?_set_self_of_some _ _ _ _ hc'
    case ry => simp only; ring
    case rx => simp only; ring
    case ld => rw [hm]; simp only [Vec2.mk.injEq]; constructor <;> ring
    case dr => rfl
    case ro => rfl
    case mo => rw [hu, hm]; simp only [Vec2.mk.injEq]; constructor <;> ring
  · rw [handleMouseUp_eq w i c hc]
    refine ⟨_, getElem?_set_self_of_some _ _ _ _ hc, rfl, rfl, ?_⟩
    simp only [Vec2.mk.injEq]; constructor <;> ring

/-! ## Idle frames -/

theorem step_frame_live {w : World} {n : ℕ} {c : Closure} (hL : Live w n c) :
    step w .frame = animate n { w with scheduled := [] } := by
  obtain ⟨h, _, _, hs⟩ := hL.frame
  exact step_frame_single w h n hs

theorem animate_iterate_idle (i : ℕ) (N : ℕ) (w : World) (c : Closure)
    (hc : w.closures[i]? = some c) (hd : c.isDragging = false) :
    ∃ c', ((animate i)^[N] w).closures[i]? = some c' ∧ c'.isDragging = false ∧
      ((animate i)^[N] w).momentumRef =
        ⟨0.99 ^ N * w.momentumRef.x, 0.99 ^ N * w.momentumRef.y⟩ := by
  induction N generalizing w c with
  | zero => exact ⟨c, hc, hd, by simp⟩
  | succ N ih =>
    rw [Function.iterate_succ_apply]
    have ha := animate_idle w i c hc hd
    have hc' : (animate i w).closures[i]? = some
        { c with
          rotation := ⟨c.rotation.x + w.momentumRef.y, c.rotation.y + w.momentumRef.x⟩
          renders := c.renders + 1 } := by
      rw [ha]; exact getElem?_set_self_of_some _ _ _ _ hc
    obtain ⟨c'', h1, h2, h3⟩ := ih (animate i w) _ hc' hd
    refine ⟨c'', h1, h2, ?_⟩
    rw [h3, ha]
    simp only [Vec2.mk.injEq]
    constructor <;> ring

theorem run_frames_idle (N : ℕ) (w : World) (n : ℕ) (c : Closure)
    (hL : Live w n c) (hd : c.isDragging = false) :
    ∃ c', Live (run w (List.replicate N .frame)) n c' ∧ c'.isDragging = false ∧
      (run w (List.replicate N .frame)).momentumRef =
        ⟨0.99 ^ N * w.momentumRef.x, 0.99 ^ N * w.momentumRef.y⟩ := by
  induction N generalizing w c with
  | zero => exact ⟨c, hL, hd, by simp [run]⟩
  | succ N ih =>
    obtain ⟨c₁, hL₁, hd₁⟩ := live_frame_step hL
    have hm : (step w .frame).momentumRef = ⟨w.momentumRef.x * 0.99, w.momentumRef.y * 0.99⟩ := by
      rw [step_frame_live hL, animate_idle { w with scheduled := [] } n c hL.closure hd]
    obtain ⟨c', h1, h2, h3⟩ := ih (step w .frame) c₁ hL₁ (hd₁.trans hd)
    have hr : run w (List.replicate (N + 1) .frame) =
        run (step w .frame) (List.replicate N .frame) := rfl
    rw [hr]
    refine ⟨c', h1, h2, ?_⟩
    rw [h3, hm]
    simp only [Vec2.mk.injEq]
    constructor <;> ring

/-! ## C2 -/

/-- C2. Idle frames.  One call of `animate` for a run that is not dragging adds the
momentum it finds to the rotation (`rotation.y += momentum.x`,
`rotation.x += momentum.y`) and then multiplies the momentum by `0.99`; after `N`
such calls the momentum is `0.99 ^ N` times what it was.  The same holds of `N` frame
events in a row in any reachable world whose current run is not dragging, and after
the release of the `(100, 50)` drag the momentum after `N` frames is
`(0.95 * 0.99 ^ N, 0.475 * 0.99 ^ N)`. -/
theorem idle_frames (w : World) (i : ℕ) (c : Closure) (N : ℕ)
    (innerWidth innerHeight : ℚ) (e₀ e₁ : MouseEvent)
    (hc : w.closures[i]? = some c) (hd : c.isDragging = false) :
    (∃ c', (animate i w).closures[i]? = some c' ∧ c'.isDragging = false ∧
      c'.rotation.y = c.rotation.y + w.momentumRef.x ∧
      c'.rotation.x = c.rotation.x + w.momentumRef.y) ∧
    (animate i w).momentumRef = ⟨0.99 * w.momentumRef.x, 0.99 * w.momentumRef.y⟩ ∧
    ((animate i)^[N] w).momentumRef =
      ⟨0.99 ^ N * w.momentumRef.x, 0.99 ^ N * w.momentumRef.y⟩ ∧
    (Reachable w → w.cleanup = some i →
      (run w (List.replicate N .frame)).momentumRef =
        ⟨0.99 ^ N * w.momentumRef.x, 0.99 ^ N * w.momentumRef.y⟩) ∧
    (run (run (mount true innerWidth innerHeight)
        [.mousedown 0 e₀, .mousemove 0 ⟨100, 50⟩, .mouseup 0 e₁])
      (List.replicate N .frame)).momentumRef = ⟨0.95 * 0.99 ^ N, 0.475 * 0.99 ^ N⟩ := by
  have ha := animate_idle w i c hc hd
  have hc' : (animate i w).closures[i]? = some
      { c with
        rotation := ⟨c.rotation.x + w.momentumRef.y, c.rotation.y + w.momentumRef.x⟩
        renders := c.renders + 1 } := by
    rw [ha]; exact getElem?_set_self_of_some _ _ _ _ hc
  refine ⟨⟨_, hc', hd, rfl, rfl⟩, ?_, ?_, ?_, ?_⟩
  · rw [ha]; simp only [Vec2.mk.injEq]; constructor <;> ring
  · obtain ⟨_, _, _, h⟩ := animate_iterate_idle i N w c hc hd
    exact h
  · intro hr hcl
    have hcur : current w = some c := by simp [current, hcl, hc]
    obtain ⟨n, hL⟩ := reachable_live_of_current hr c hcur
    obtain ⟨_, _, _, h⟩ := run_frames_idle N w n c hL hd
    exact h
  · have hr : Reachable (run (mount true innerWidth innerHeight)
        [.mousedown 0 e₀, .mousemove 0 ⟨100, 50⟩, .mouseup 0 e₁]) :=
      reachable_run (reachable_mount true innerWidth innerHeight) _
    have hcur := run_down_move_up innerWidth innerHeight e₀ e₁
    obtain ⟨n, hL⟩ := reachable_live_of_current hr _ (by rw [hcur]; rfl)
    obtain ⟨_, _, _, h⟩ := run_frames_idle N _ n _ hL rfl
    rw [h, hcur]
    simp only [Vec2.mk.injEq]
    constructor <;> ring

/-! ## C3 -/

theorem setCurrentShape_old {w : World} {n : ℕ} {c : Closure} (hL : Live w n c)
    (shape : String) (hs : shape ≠ w.currentShape) :
    (setCurrentShape shape w).closures[n]? = some
      { c with geometryDisposed := true, materialDisposed := true, rendererDisposed := true } := by
  rw [setCurrentShape_live hL shape hs]
  generalize hW : ({ w with
      currentShape := shape
      scheduled := []
      listeners := []
      mountChildren := []
      closures := w.closures.modify
        (fun c => { c with geometryDisposed := true, materialDisposed := true,
                           rendererDisposed := true }) n } : World) = W
  have hlen : W.closures.length = n + 1 := by rw [← hW]; simp [hL.length]
  have hb : (build W).closures[n + 1]? = some (setup W) := by
    rw [← hlen]; exact build_closure W
  rw [animate_idle (build W) (n + 1) (setup W) hb rfl]
  have hne : n + 1 ≠ n := Nat.succ_ne_self n
  have hlt : n < W.closures.length := by omega
  have hold : W.closures[n]? = some
      { c with geometryDisposed := true, materialDisposed := true,
               rendererDisposed := true } := by
    rw [← hW]; simp [List.getElem?_modify_eq, hL.closure]
  simpa [List.getElem?_set_ne hne, build, List.getElem?_append_left hlt] using hold

/-- C4. Shape switch during a drag.  In every world reached from a mount by pointer,
resize, frame and shape-selection events, a current run that is dragging has momentum
`(0, 0)`.  When a different shape is selected in such a world, the run that is rebuilt
is idle, its mesh is not rotated and the momentum is `(0, 0)`, both when its setup is
done and after the `animate()` call that ends the effect; its last pointer position is
`(0, 0)` and its geometry is that of the new shape.  The run of the aborted drag keeps
the rotation it had, its resources are disposed, and the only listeners left are those
of the new run. -/
theorem shape_switch_during_drag (w : World) (c : Closure) (shape : String)
    (hr : Reachable w) (hc : current w = some c) (hd : c.isDragging = true)
    (hs : shape ≠ w.currentShape) :
    w.momentumRef = ⟨0, 0⟩ ∧
    ∃ n c₀ c₁ c',
      w.cleanup = some n ∧
      (build (cleanup n { w with currentShape := shape })).closures[n + 1]? = some c₀ ∧
      c₀.isDragging = false ∧ c₀.rotation = ⟨0, 0⟩ ∧
      (build (cleanup n { w with currentShape := shape })).momentumRef = ⟨0, 0⟩ ∧
      (step w (.selectShape shape)).cleanup = some (n + 1) ∧
      current (step w (.selectShape shape)) = some c₁ ∧
      c₁.isDragging = false ∧ c₁.rotation = ⟨0, 0⟩ ∧
      c₁.previousMousePosition = ⟨0, 0⟩ ∧ c₁.geometry = createGeometry shape ∧
      (step w (.selectShape shape)).momentumRef = ⟨0, 0⟩ ∧
      (step w (.selectShape shape)).closures[n]? = some c' ∧
      c'.rotation = c.rotation ∧ disposed c' ∧
      (step w (.selectShape shape)).listeners = listenersOf (n + 1) := by
  obtain ⟨n, hL⟩ := reachable_live_of_current hr c hc
  have hm : w.momentumRef = ⟨0, 0⟩ := hL.drag hd
  obtain ⟨hL', hm', -, -⟩ := live_selectShape hL shape hs
  obtain ⟨h, h0, hf, hsch⟩ := hL.frame
  have hcl := cleanup_eq { w with currentShape := shape } n h h0 hf hsch hL.listeners
    hL.mountChildren
  have hlen : (cleanup n { w with currentShape := shape }).closures.length = n + 1 := by
    rw [hcl]; simp [hL.length]
  have hb := build_closure (cleanup n { w with currentShape := shape })
  rw [hlen] at hb
  refine ⟨hm, n, _, ?c1, _, hL.cleanup, hb, rfl, rfl, ?g1, hL'.cleanup, ?g2, ?g3, ?g4, ?g5, ?g6,
    ?g7, setCurrentShape_old hL shape hs, rfl, ⟨rfl, rfl, rfl⟩, hL'.listeners⟩
  case g2 =>
    have hcur := live_current hL'
    exact hcur
  case g1 => rw [hcl]; exact hm
  case g3 => rfl
  case g4 => simp [hm]
  case g5 => rfl
  case g6 => rfl
  case g7 =>
    show (setCurrentShape shape w).momentumRef = _
    rw [hm', hm]; simp

/-! ## C5 -/

/-- C5. Resize frame condition.  `handleResize` of a run changes two fields of that
run and nothing else in the world: the camera aspect becomes the quotient of
`innerWidth` by `innerHeight` (the rational `innerWidth / innerHeight` when
`innerHeight` is not zero) and the renderer size `innerWidth` by `innerHeight`.  The
momentum, the cached delta, and the run's drag flag, last pointer position and mesh
rotation are as before, and so is every other run.  In a reachable world a resize
event to `width` by `height` sets the window size and does exactly that to the current
run, with the quotient of `width` by `height` as aspect and size `width` by `height`. -/
theorem resize_frame_condition (w : World) (i : ℕ) (c : Closure) (width height : ℚ)
    (hc : w.closures[i]? = some c) :
    handleResize i w =
      { w with
        closures := w.closures.set i
          { c with
            aspect := quotient w.innerWidth w.innerHeight
            size := (w.innerWidth, w.innerHeight) } } ∧
    (handleResize i w).momentumRef = w.momentumRef ∧
    (handleResize i w).lastDeltaRef = w.lastDeltaRef ∧
    (∃ c', (handleResize i w).closures[i]? = some c' ∧
      c'.isDragging = c.isDragging ∧
      c'.previousMousePosition = c.previousMousePosition ∧
      c'.rotation = c.rotation ∧
      c'.aspect = quotient w.innerWidth w.innerHeight ∧
      (w.innerHeight ≠ 0 → c'.aspect = some (w.innerWidth / w.innerHeight)) ∧
      c'.size = (w.innerWidth, w.innerHeight)) ∧
    (∀ j, j ≠ i → (handleResize i w).closures[j]? = w.closures[j]?) ∧
    (Reachable w → w.cleanup = some i →
      step w (.resize width height) =
        { w with
          innerWidth := width
          innerHeight := height
          closures := w.closures.set i
            { c with aspect := quotient width height, size := (width, height) } }) := by
  have he := handleResize_eq w i c hc
  have hc' : (handleResize i w).closures[i]? = some
      { c with
        aspect := quotient w.innerWidth w.innerHeight
        size := (w.innerWidth, w.innerHeight) } := by
    rw [he]; exact getElem?_set_self_of_some _ _ _ _ hc
  refine ⟨he, by rw [he], by rw [he],
    ⟨_, hc', rfl, rfl, rfl, rfl, fun h => if_neg h, rfl⟩, ?_, ?_⟩
  · intro j hj
    rw [he]
    exact List.getElem?_set_ne (Ne.symm hj)
  · intro hr hcl
    have hcur : current w = some c := by simp [current, hcl, hc]
    obtain ⟨n, hL⟩ := reachable_live_of_current hr c hcur
    have hn : n = i := by
      have := hL.cleanup
      rw [hcl] at this
      exact (Option.some.inj this).symm
    subst hn
    simp only [step]
    rw [dispatch_resize { w with innerWidth := width, innerHeight := height } n _ hL.listeners,
      handleResize_eq { w with innerWidth := width, innerHeight := height } n c hc]

/-! ## C6 -/

/-- C6. Direct manipulation and inertia exclude each other.  A pointer-move on a run
that is not dragging changes only that run's last pointer position, which becomes the
event's coordinates: rotation, momentum and cached delta stay.  A pointer-move sets the
last pointer position to the event's coordinates whether the run is dragging or not.
A call of `animate` on a run that is dragging changes neither rotation nor momentum:
it records the next frame request and renders.  So a pointer-move that changes the
rotation finds the run dragging, and an `animate` that changes the rotation finds it
not dragging. -/
theorem manipulation_excludes_inertia (w : World) (i : ℕ) (c : Closure) (e : MouseEvent)
    (hc : w.closures[i]? = some c) :
    (c.isDragging = false →
      handleMouseMove i e w =
        { w with
          closures := w.closures.set i
            { c with previousMousePosition := ⟨e.offsetX, e.offsetY⟩ } }) ∧
    (∃ c', (handleMouseMove i e w).closures[i]? = some c' ∧
      c'.previousMousePosition = ⟨e.offsetX, e.offsetY⟩ ∧
      c'.isDragging = c.isDragging ∧
      (c.isDragging = false → c'.rotation = c.rotation) ∧
      (c'.rotation ≠ c.rotation → c.isDragging = true)) ∧
    (c.isDragging = false →
      (handleMouseMove i e w).momentumRef = w.momentumRef ∧
      (handleMouseMove i e w).lastDeltaRef = w.lastDeltaRef) ∧
    (c.isDragging = true →
      animate i w =
        { w with
          frameId := some w.nextHandle
          scheduled := w.scheduled ++ [(w.nextHandle, i)]
          nextHandle := w.nextHandle + 1
          closures := w.closures.set i { c with renders := c.renders + 1 } }) ∧
    (∃ c', (animate i w).closures[i]? = some c' ∧
      c'.isDragging = c.isDragging ∧
      (c.isDragging = true → c'.rotation = c.rotation) ∧
      (c'.rotation ≠ c.rotation → c.isDragging = false)) ∧
    (c.isDragging = true → (animate i w).momentumRef = w.momentumRef) := by
  refine ⟨handleMouseMove_idle w i c e hc, ?_, ?_, animate_dragging w i c hc, ?_, ?_⟩
  · cases hd : c.isDragging
    · rw [handleMouseMove_idle w i c e hc hd]
      exact ⟨_, getElem?_set_self_of_some _ _ _ _ hc, rfl, hd, fun _ => rfl,
        fun h => absurd rfl h⟩
    · rw [handleMouseMove_dragging w i c e hc hd]
      exact ⟨_, getElem?_set_self_of_some _ _ _ _ hc, rfl, hd,
        fun h => Bool.noConfusion h, fun _ => rfl⟩
  · intro hd
    rw [handleMouseMove_idle w i c e hc hd]
    exact ⟨rfl, rfl⟩
  · cases hd : c.isDragging
    · rw [animate_idle w i c hc hd]
      exact ⟨_, getElem?_set_self_of_some _ _ _ _ hc, hd, fun h => Bool.noConfusion h,
        fun _ => rfl⟩
    · rw [animate_dragging w i c hc hd]
      exact ⟨_, getElem?_set_self_of_some _ _ _ _ hc, hd, fun _ => rfl,
        fun h => absurd rfl h⟩
  · intro hd
    rw [animate_dragging w i c hc hd]

/-! ## C9 -/

theorem animate_lastDeltaRef (i : ℕ) (w : World) :
    (animate i w).lastDeltaRef = w.lastDeltaRef := by
  unfold animate
  split
  · rfl
  · split <;> rfl

theorem cleanup_lastDeltaRef (i : ℕ) (w : World) :
    (cleanup i w).lastDeltaRef = w.lastDeltaRef := by
  unfold cleanup cancelAnimationFrame
  cases w.frameId with
  | none => dsimp only; split <;> rfl
  | some h => dsimp only; split <;> split <;> rfl

theorem effect_lastDeltaRef (w : World) : (effect w).lastDeltaRef = w.lastDeltaRef := by
  unfold effect
  split
  · rfl
  · exact animate_lastDeltaRef _ _

theorem setCurrentShape_lastDeltaRef (shape : String) (w : World) :
    (setCurrentShape shape w).lastDeltaRef = w.lastDeltaRef := by
  unfold setCurrentShape
  split
  · rfl
  · rw [effect_lastDeltaRef]
    cases w.cleanup with
    | none => rfl
    | some i => exact cleanup_lastDeltaRef _ _

/-- C9. Stale release delta.  `lastDeltaRef` is left as it is by `handleMouseDown`,
`handleMouseUp`, `handleResize`, `animate`, a pointer-move on a run that is not
dragging, and a shape selection; a pointer-move on a dragging run overwrites it with
the scaled delta of that move.  Hence a pointer-down followed at once by a pointer-up
sets the momentum to `0.95` times the `lastDeltaRef` found, which is not `(0, 0)`
when that cached delta is not; a drag released after a move has momentum `0.95` times
the scaled delta of that last move, whatever was cached before.  On a newly mounted
component, a click that follows the drag to `(100, 50)` and its release sets the
momentum to `(0.95, 0.475)` again. -/
theorem stale_release_delta (w : World) (i : ℕ) (c : Closure) (e e₀ e₁ e₂ e₃ : MouseEvent)
    (shape : String) (innerWidth innerHeight : ℚ)
    (hc : w.closures[i]? = some c) :
    (handleMouseDown i w).lastDeltaRef = w.lastDeltaRef ∧
    (handleMouseUp i w).lastDeltaRef = w.lastDeltaRef ∧
    (handleResize i w).lastDeltaRef = w.lastDeltaRef ∧
    (animate i w).lastDeltaRef = w.lastDeltaRef ∧
    (setCurrentShape shape w).lastDeltaRef = w.lastDeltaRef ∧
    (c.isDragging = false → (handleMouseMove i e w).lastDeltaRef = w.lastDeltaRef) ∧
    (c.isDragging = true →
      (handleMouseMove i e w).lastDeltaRef =
        ⟨0.01 * (e.offsetX - c.previousMousePosition.x),
         0.01 * (e.offsetY - c.previousMousePosition.y)⟩) ∧
    (handleMouseUp i (handleMouseDown i w)).momentumRef =
      ⟨0.95 * w.lastDeltaRef.x, 0.95 * w.lastDeltaRef.y⟩ ∧
    (w.lastDeltaRef ≠ ⟨0, 0⟩ →
      (handleMouseUp i (handleMouseDown i w)).momentumRef ≠ ⟨0, 0⟩) ∧
    (Reachable w → w.cleanup = some i →
      (run w [.mousedown i e₀, .mouseup i e₁]).momentumRef =
        ⟨0.95 * w.lastDeltaRef.x, 0.95 * w.lastDeltaRef.y⟩) ∧
    (c.isDragging = true →
      (handleMouseUp i (handleMouseMove i e w)).momentumRef =
        ⟨0.95 * (0.01 * (e.offsetX - c.previousMousePosition.x)),
         0.95 * (0.01 * (e.offsetY - c.previousMousePosition.y))⟩) ∧
    (run (mount true innerWidth innerHeight)
      [.mousedown 0 e₀, .mousemove 0 ⟨100, 50⟩, .mouseup 0 e₁,
       .mousedown 0 e₂, .mouseup 0 e₃]).momentumRef = ⟨0.95, 0.475⟩ := by
  have hdown := handleMouseDown_eq w i c hc
  have hcd : (handleMouseDown i w).closures[i]? = some { c with isDragging := true } := by
    rw [hdown]; exact getElem?_set_self_of_some _ _ _ _ hc
  have hclick : (handleMouseUp i (handleMouseDown i w)).momentumRef =
      ⟨0.95 * w.lastDeltaRef.x, 0.95 * w.lastDeltaRef.y⟩ := by
    rw [handleMouseUp_eq _ i _ hcd, hdown]
    simp only [Vec2.mk.injEq]
    constructor <;> ring
  have hevent : ∀ (v : World) (n : ℕ) (c' : Closure) (a b : MouseEvent), Live v n c' →
      (run v [.mousedown n a, .mouseup n b]).momentumRef =
        ⟨0.95 * v.lastDeltaRef.x, 0.95 * v.lastDeltaRef.y⟩ := by
    intro v n c' a b hL
    have hL' := live_mousedown hL
    simp only [run, List.foldl, step]
    rw [dispatch_mousedown v n n a hL.listeners, if_pos rfl,
      dispatch_mouseup _ n n b hL'.listeners, if_pos rfl,
      handleMouseUp_eq _ n _ hL'.closure, handleMouseDown_eq v n c' hL.closure]
    simp only [Vec2.mk.injEq]
    constructor <;> ring
  refine ⟨by rw [hdown], by rw [handleMouseUp_eq w i c hc], by rw [handleResize_eq w i c hc],
    animate_lastDeltaRef i w, setCurrentShape_lastDeltaRef shape w, ?_, ?_, hclick, ?_, ?_, ?_, ?_⟩
  · intro hd
    rw [handleMouseMove_idle w i c e hc hd]
  · intro hd
    rw [handleMouseMove_dragging w i c e hc hd]
    simp only [Vec2.mk.injEq]
    constructor <;> ring
  · intro hne h0
    rw [hclick] at h0
    apply hne
    have hx : 0.95 * w.lastDeltaRef.x = 0 := congrArg Vec2.x h0
    have hy : 0.95 * w.lastDeltaRef.y = 0 := congrArg Vec2.y h0
    have hx' : w.lastDeltaRef.x = 0 := by linarith
    have hy' : w.lastDeltaRef.y = 0 := by linarith
    cases hw : w.lastDeltaRef
    rw [hw] at hx' hy'
    simp only [Vec2.mk.injEq]
    exact ⟨hx', hy'⟩
  · intro hr hcl
    have hcur : current w = some c := by simp [current, hcl, hc]
    obtain ⟨n, hL⟩ := reachable_live_of_current hr c hcur
    have hn : n = i := by
      have := hL.cleanup
      rw [hcl] at this
      exact (Option.some.inj this).symm
    subst hn
    exact hevent w n c e₀ e₁ hL
  · intro hd
    have hm := handleMouseMove_dragging w i c e hc hd
    have hc' : (handleMouseMove i e w).closures[i]? = some
        { c with
          rotation :=
            ⟨c.rotation.x + (e.offsetY - c.previousMousePosition.y) * 0.01,
             c.rotation.y + (e.offsetX - c.previousMousePosition.x) * 0.01⟩
          previousMousePosition := ⟨e.offsetX, e.offsetY⟩ } := by
      rw [hm]; exact getElem?_set_self_of_some _ _ _ _ hc
    rw [handleMouseUp_eq _ i _ hc', hm]
    simp only [Vec2.mk.injEq]
    constructor <;> ring
  · have hsplit : run (mount true innerWidth innerHeight)
        [.mousedown 0 e₀, .mousemove 0 ⟨100, 50⟩, .mouseup 0 e₁,
         .mousedown 0 e₂, .mouseup 0 e₃] =
        run (run (mount true innerWidth innerHeight)
          [.mousedown 0 e₀, .mousemove 0 ⟨100, 50⟩, .mouseup 0 e₁])
          [.mousedown 0 e₂, .mouseup 0 e₃] :=
      run_append _ [.mousedown 0 e₀, .mousemove 0 ⟨100, 50⟩, .mouseup 0 e₁]
        [.mousedown 0 e₂, .mouseup 0 e₃]
    have hr : Reachable (run (mount true innerWidth innerHeight)
        [.mousedown 0 e₀, .mousemove 0 ⟨100, 50⟩, .mouseup 0 e₁]) :=
      reachable_run (reachable_mount true innerWidth innerHeight) _
    have hw := run_down_move_up innerWidth innerHeight e₀ e₁
    obtain ⟨n, hL⟩ := reachable_live_of_current hr _ (by rw [hw]; rfl)
    have hn : n = 0 := by
      have := hL.cleanup
      rw [hw] at this
      exact (Option.some.inj this).symm
    subst hn
    rw [hsplit, hevent _ 0 _ e₂ e₃ hL, hw]
    simp only [Vec2.mk.injEq]
    constructor <;> norm_num

/-! ## C10 -/

theorem setCurrentShape_eq_animate {w : World} {n : ℕ} {c : Closure} (hL : Live w n c)
    (shape : String) (hs : shape ≠ w.currentShape) :
    setCurrentShape shape w =
      { animate (n + 1) (build (cleanup n { w with currentShape := shape })) with
        cleanup := some (n + 1) } := by
  obtain ⟨h, h0, hf, hsch⟩ := hL.frame
  have hcl := cleanup_eq { w with currentShape := shape } n h h0 hf hsch hL.listeners
    hL.mountChildren
  have h1 : setCurrentShape shape w = effect (cleanup n { w with currentShape := shape }) := by
    simp [setCurrentShape, hs, hL.cleanup]
  have hlen : (cleanup n { w with currentShape := shape }).closures.length = n + 1 := by
    rw [hcl]; simp [hL.length]
  rw [h1, effect_eq, hlen]
  · rw [hcl]; exact hL.mountRef
  · rw [hcl]; exact hL.three

/-- C10. Momentum survives a shape change.  In a reachable world with a current run
and momentum `m`, selecting a different shape builds a new run whose mesh is not
rotated, whose drag flag is `false`, whose last pointer position is `(0, 0)` and whose
geometry is that of the new shape, while the momentum is still `m` and the cached delta
is unchanged.  The effect then ends with its `animate()` call, the first frame of the
new run, which rotates the new mesh by `m` (`rotation.y = m.x`, `rotation.x = m.y`)
and leaves the momentum `0.99 * m`.  The momentum of the rebuilt run is `(0, 0)`,
before and after that frame, exactly when `m` was. -/
theorem momentum_survives_shape_change (w : World) (c : Closure) (shape : String)
    (hr : Reachable w) (hc : current w = some c) (hs : shape ≠ w.currentShape) :
    ∃ n c₀ c₁,
      w.cleanup = some n ∧
      (build (cleanup n { w with currentShape := shape })).closures[n + 1]? = some c₀ ∧
      c₀.rotation = ⟨0, 0⟩ ∧ c₀.isDragging = false ∧
      c₀.previousMousePosition = ⟨0, 0⟩ ∧ c₀.geometry = createGeometry shape ∧
      (build (cleanup n { w with currentShape := shape })).momentumRef = w.momentumRef ∧
      (build (cleanup n { w with currentShape := shape })).lastDeltaRef = w.lastDeltaRef ∧
      step w (.selectShape shape) =
        { animate (n + 1) (build (cleanup n { w with currentShape := shape })) with
          cleanup := some (n + 1) } ∧
      current (step w (.selectShape shape)) = some c₁ ∧
      c₁.isDragging = false ∧
      c₁.rotation.y = w.momentumRef.x ∧ c₁.rotation.x = w.momentumRef.y ∧
      (step w (.selectShape shape)).momentumRef =
        ⟨0.99 * w.momentumRef.x, 0.99 * w.momentumRef.y⟩ ∧
      (step w (.selectShape shape)).lastDeltaRef = w.lastDeltaRef ∧
      ((build (cleanup n { w with currentShape := shape })).momentumRef = ⟨0, 0⟩ ↔
        w.momentumRef = ⟨0, 0⟩) ∧
      ((step w (.selectShape shape)).momentumRef = ⟨0, 0⟩ ↔ w.momentumRef = ⟨0, 0⟩) := by
  obtain ⟨n, hL⟩ := reachable_live_of_current hr c hc
  obtain ⟨hL', hm', hd', -⟩ := live_selectShape hL shape hs
  obtain ⟨h, h0, hf, hsch⟩ := hL.frame
  have hcl := cleanup_eq { w with currentShape := shape } n h h0 hf hsch hL.listeners
    hL.mountChildren
  have hlen : (cleanup n { w with currentShape := shape }).closures.length = n + 1 := by
    rw [hcl]; simp [hL.length]
  have hb := build_closure (cleanup n { w with currentShape := shape })
  rw [hlen] at hb
  have hbm : (build (cleanup n { w with currentShape := shape })).momentumRef =
      w.momentumRef := by rw [hcl]; rfl
  have hstep : step w (.selectShape shape) = setCurrentShape shape w := rfl
  have hmom : (setCurrentShape shape w).momentumRef =
      ⟨0.99 * w.momentumRef.x, 0.99 * w.momentumRef.y⟩ := by
    rw [hm']; simp only [Vec2.mk.injEq]; constructor <;> ring
  refine ⟨n, _, ?c1, hL.cleanup, hb, rfl, rfl, rfl, ?g0, hbm, ?g1, ?g2, ?g3, ?g4, ?g5, ?g6,
    ?g7, ?g8, ?g9, ?g10⟩
  case g3 =>
    have hcur := live_current hL'
    rw [hstep]
    exact hcur
  case g0 => rw [hcl]; rfl
  case g1 => rw [hcl]; rfl
  case g2 => rw [hstep]; exact setCurrentShape_eq_animate hL shape hs
  case g4 => rfl
  case g5 => simp
  case g6 => simp
  case g7 => rw [hstep]; exact hmom
  case g8 => rw [hstep]; exact hd'
  case g9 => rw [hbm]
  case g10 =>
    rw [hstep, hmom]
    constructor
    · intro h0
      have hx : 0.99 * w.momentumRef.x = 0 := congrArg Vec2.x h0
      have hy : 0.99 * w.momentumRef.y = 0 := congrArg Vec2.y h0
      have hx' : w.momentumRef.x = 0 := by linarith
      have hy' : w.momentumRef.y = 0 := by linarith
      cases hw : w.momentumRef
      rw [hw] at hx' hy'
      simp only [Vec2.mk.injEq]
      exact ⟨hx', hy'⟩
    · intro h0
      rw [h0]
      simp

/-! ## C7 -/

theorem live_run {w : World} {n : ℕ} {c : Closure} (hL : Live w n c) (es : List Event) :
    ∃ n' c', Live (run w es) n' c' := by
  induction es generalizing w n c with
  | nil => exact ⟨n, c, hL⟩
  | cons e es ih =>
    obtain ⟨n', c', hL'⟩ := live_step hL e
    exact ih hL'

theorem live_tidy {w : World} {n : ℕ} {c : Closure} (hL : Live w n c) : Tidy w := by
  obtain ⟨h, _, hf, hs⟩ := hL.frame
  refine ⟨n, c, h, hL.cleanup, hL.sceneRef, hL.closure, ?_, ?_, ?_, ?_, hL.mountChildren,
    hL.listeners, ?_, hf, hs, hL.undisposed.1, hL.undisposed.2.1, hL.undisposed.2.2, ?_⟩
  · rw [hL.children]; rfl
  · rw [hL.children]; rfl
  · rw [hL.children]; rfl
  · rw [hL.children]; rfl
  · rw [hL.listeners]; rfl
  · intro j c' hj hc'
    rcases Nat.lt_or_gt_of_ne hj with hlt | hgt
    · exact hL.older j c' hlt hc'
    · have hlen : w.closures.length ≤ j := by rw [hL.length]; omega
      rw [List.getElem?_eq_none hlen] at hc'
      exact Option.noConfusion hc'

/-- C7. Teardown leaves nothing behind.  In a reachable world of a component whose
rendering library is present, let `n` be the current run and `h` the recorded frame
handle.  When the cleanup of run `n` is called, with the mount element still attached
(a shape change) or not (`b = false`, an unmount), then afterwards no listener is
registered, in particular none of the four of run `n`; no frame request is pending, so
the request `h` is cancelled; geometry, material and renderer of run `n`, and of every
run there is, are disposed; and, the mount element attached, it has no child.  Before
the cleanup, and after any further sequence of events (each selection of another shape
being one teardown followed by one build), the world is `Tidy`: one scene with one
mesh, two directional lights and one ambient light, one render surface, four
listeners, one pending frame, and nothing undisposed but the current run. -/
theorem teardown_leaves_nothing (w : World) (b : Bool) (es : List Event)
    (hr : Reachable w) (ht : w.THREE = true) :
    (∃ n h,
      w.cleanup = some n ∧ w.frameId = some h ∧ (h, n) ∈ w.scheduled ∧
      (∀ l ∈ listenersOf n, l ∈ w.listeners) ∧
      (cleanup n { w with mountRef := b }).listeners = [] ∧
      (∀ l ∈ listenersOf n, l ∉ (cleanup n { w with mountRef := b }).listeners) ∧
      (cleanup n { w with mountRef := b }).scheduled = [] ∧
      (h, n) ∉ (cleanup n { w with mountRef := b }).scheduled ∧
      (∃ c', (cleanup n { w with mountRef := b }).closures[n]? = some c' ∧ disposed c') ∧
      (∀ (j : ℕ) (c' : Closure),
        (cleanup n { w with mountRef := b }).closures[j]? = some c' → disposed c') ∧
      (b = true → (cleanup n { w with mountRef := b }).mountChildren = [])) ∧
    Tidy w ∧ Tidy (run w es) := by
  obtain ⟨n, c, hL⟩ := reachable_live hr ht
  obtain ⟨n', c', hL'⟩ := live_run hL es
  refine ⟨?_, live_tidy hL, live_tidy hL'⟩
  obtain ⟨h, h0, hf, hs⟩ := hL.frame
  have hcl := cleanup_eq { w with mountRef := b } n h h0 hf hs hL.listeners hL.mountChildren
  have hcn : (cleanup n { w with mountRef := b }).closures[n]? = some
      { c with geometryDisposed := true, materialDisposed := true,
               rendererDisposed := true } := by
    rw [hcl]; simp [List.getElem?_modify_eq, hL.closure]
  refine ⟨n, h, hL.cleanup, hf, by rw [hs]; exact List.mem_singleton_self _,
    fun l hl => by rw [hL.listeners]; exact hl, by rw [hcl], ?_, by rw [hcl], ?_,
    ⟨_, hcn, rfl, rfl, rfl⟩, ?_, ?_⟩
  · intro l _
    rw [hcl]
    exact List.not_mem_nil l
  · rw [hcl]
    exact List.not_mem_nil _
  · intro j c'' hj
    by_cases hjn : j = n
    · subst hjn
      rw [hcn] at hj
      rw [← Option.some.inj hj]
      exact ⟨rfl, rfl, rfl⟩
    · have hne : n ≠ j := fun h => hjn h.symm
      rw [hcl] at hj
      have hj' : w.closures[j]? = some c'' := by
        simpa [List.getElem?_modify_ne _ _ hne] using hj
      have hlt : j < n := by
        by_contra hge
        have hlen : w.closures.length ≤ j := by rw [hL.length]; omega
        rw [List.getElem?_eq_none hlen] at hj'
        exact Option.noConfusion hj'
      exact hL.older j c'' hlt hj'
  · intro hb
    rw [hcl, hb]
    rfl

/-! ## C8 -/

/-- C8. Shape selection.  The buttons are, in order, cube, sphere, cylinder, torus,
cone and octahedron; `createGeometry` maps them, in that order, to the box
`2 x 2 x 2`, the sphere of radius `1.5` with `32 x 32` segments, the cylinder of radii
`1`, `1`, height `2` and `32` segments, the torus of radius `1`, tube `0.4` and
`16 x 100` segments, the cone of radius `1`, height `2` and `32` segments, and the
octahedron of radius `1.5`; these six are pairwise distinct; and a name that is none of
sphere, cylinder, torus, cone and octahedron is mapped to the box `2 x 2 x 2`. -/
theorem shape_selection (s : String) :
    shapeButtons = ["cube", "sphere", "cylinder", "torus", "cone", "octahedron"] ∧
    shapeButtons.map createGeometry =
      [.BoxGeometry 2 2 2, .SphereGeometry 1.5 32 32, .CylinderGeometry 1 1 2 32,
       .TorusGeometry 1 0.4 16 100, .ConeGeometry 1 2 32, .OctahedronGeometry 1.5] ∧
    (shapeButtons.map createGeometry).Nodup ∧
    (s ≠ "sphere" → s ≠ "cylinder" → s ≠ "torus" → s ≠ "cone" → s ≠ "octahedron" →
      createGeometry s = .BoxGeometry 2 2 2) := by
  refine ⟨rfl, ?_, ?_, ?_⟩
  · simp [shapeButtons, createGeometry]
  · simp [shapeButtons, createGeometry]
  · intro h1 h2 h3 h4 h5
    unfold createGeometry
    split <;> simp_all

/-! ## Three concrete worlds -/

theorem mounted_closure : mounted.closures[0]? = some
    { children :=
        [.Mesh (.BoxGeometry 2 2 2),
         .DirectionalLight 0xffffff 1 (1, 1, 1),
         .DirectionalLight 0xffffff 0.5 (-1, -1, -1),
         .AmbientLight 0x404040]
      aspect := quotient 800 600
      size := (800, 600)
      rotation := ⟨0, 0⟩
      isDragging := false
      previousMousePosition := ⟨0, 0⟩
      geometry := .BoxGeometry 2 2 2
      geometryDisposed := false
      materialDisposed := false
      rendererDisposed := false
      renders := 1 } := by
  rw [mounted, mount_eq]
  rfl

theorem pressed_closure : pressed.closures[0]? = some
    { children :=
        [.Mesh (.BoxGeometry 2 2 2),
         .DirectionalLight 0xffffff 1 (1, 1, 1),
         .DirectionalLight 0xffffff 0.5 (-1, -1, -1),
         .AmbientLight 0x404040]
      aspect := quotient 800 600
      size := (800, 600)
      rotation := ⟨0, 0⟩
      isDragging := true
      previousMousePosition := ⟨0, 0⟩
      geometry := .BoxGeometry 2 2 2
      geometryDisposed := false
      materialDisposed := false
      rendererDisposed := false
      renders := 1 } := by
  rw [pressed, mounted, mount_eq]
  simp only [run, List.foldl, step]
  rw [dispatch_mousedown _ 0 _ _ rfl]
  simp only [handleMouseDown, if_true, List.getElem?_cons_zero, List.set_cons_zero]

theorem pressed_cleanup : pressed.cleanup = some 0 := by
  rw [pressed, mounted, mount_eq]
  simp only [run, List.foldl, step]
  rw [dispatch_mousedown _ 0 _ _ rfl]
  simp only [handleMouseDown, if_true, List.getElem?_cons_zero, List.set_cons_zero]

theorem pressed_currentShape : pressed.currentShape = "cube" := by
  rw [pressed, mounted, mount_eq]
  simp only [run, List.foldl, step]
  rw [dispatch_mousedown _ 0 _ _ rfl]
  simp only [handleMouseDown, if_true, List.getElem?_cons_zero, List.set_cons_zero]

theorem released_eq : released =
    { innerWidth := 800
      innerHeight := 600
      THREE := true
      mountRef := true
      mountChildren := [0]
      currentShape := "cube"
      momentumRef := ⟨19 / 20, 19 / 40⟩
      lastDeltaRef := ⟨1, 1 / 2⟩
      frameId := some 1
      sceneRef := some 0
      closures :=
        [{ children :=
             [.Mesh (.BoxGeometry 2 2 2),
              .DirectionalLight 0xffffff 1 (1, 1, 1),
              .DirectionalLight 0xffffff 0.5 (-1, -1, -1),
              .AmbientLight 0x404040]
           aspect := quotient 800 600
           size := (800, 600)
           rotation := ⟨1 / 2, 1⟩
           isDragging := false
           previousMousePosition := ⟨100, 50⟩
           geometry := .BoxGeometry 2 2 2
           geometryDisposed := false
           materialDisposed := false
           rendererDisposed := false
           renders := 1 }]
      listeners := listenersOf 0
      scheduled := [(1, 0)]
      nextHandle := 2
      cleanup := some 0 } :=
  run_down_move_up 800 600 ⟨0, 0⟩ ⟨100, 50⟩

theorem reachable_mounted : Reachable mounted :=
  ⟨true, 800, 600, [], rfl⟩

theorem reachable_pressed : Reachable pressed :=
  ⟨true, 800, 600, [.mousedown 0 ⟨0, 0⟩], rfl⟩

theorem reachable_released : Reachable released :=
  ⟨true, 800, 600, [.mousedown 0 ⟨0, 0⟩, .mousemove 0 ⟨100, 50⟩, .mouseup 0 ⟨100, 50⟩], rfl⟩

theorem released_closure : released.closures[0]? = some
    { children :=
        [.Mesh (.BoxGeometry 2 2 2),
         .DirectionalLight 0xffffff 1 (1, 1, 1),
         .DirectionalLight 0xffffff 0.5 (-1, -1, -1),
         .AmbientLight 0x404040]
      aspect := quotient 800 600
      size := (800, 600)
      rotation := ⟨1 / 2, 1⟩
      isDragging := false
      previousMousePosition := ⟨100, 50⟩
      geometry := .BoxGeometry 2 2 2
      geometryDisposed := false
      materialDisposed := false
      rendererDisposed := false
      renders := 1 } := by
  rw [released_eq]
  rfl

theorem released_cleanup : released.cleanup = some 0 := by
  rw [released_eq]

theorem current_of_cleanup {w : World} {i : ℕ} {c : Closure} (hcl : w.cleanup = some i)
    (hc : w.closures[i]? = some c) : current w = some c := by
  simp only [current, hcl, hc]

/-! ## The theorems at concrete worlds -/

/-- C1 at the pressed component: a move to `(100, 50)` and the release leave the
momentum `0.95 * (0.01 * 100)` and `0.95 * (0.01 * 50)`. -/
theorem drag_then_release_witness :
    (∃ c, pressed.closures[0]? = some c ∧ c.isDragging = true) ∧
    (handleMouseUp 0 (handleMouseMove 0 ⟨100, 50⟩ pressed)).momentumRef =
      ⟨0.95 * (0.01 * (100 - 0)), 0.95 * (0.01 * (50 - 0))⟩ := by
  refine ⟨⟨_, pressed_closure, rfl⟩, ?_⟩
  obtain ⟨_, _, _, _, _, _, _, _, _, _, h⟩ :=
    (drag_then_release 800 600 ⟨0, 0⟩ ⟨100, 50⟩ pressed 0 _ ⟨100, 50⟩ pressed_closure rfl).2.1
  exact h

/-- C2 at the released component: two calls of `animate` leave `0.99 ^ 2` of the
momentum. -/
theorem idle_frames_witness :
    (∃ c, released.closures[0]? = some c ∧ c.isDragging = false) ∧
    ((animate 0)^[2] released).momentumRef =
      ⟨0.99 ^ 2 * released.momentumRef.x, 0.99 ^ 2 * released.momentumRef.y⟩ :=
  ⟨⟨_, released_closure, rfl⟩,
    (idle_frames released 0 _ 2 800 600 ⟨0, 0⟩ ⟨100, 50⟩ released_closure rfl).2.2.1⟩

/-- C4 at the pressed component: the momentum is `(0, 0)`, and is after the sphere is
selected. -/
theorem shape_switch_during_drag_witness :
    Reachable pressed ∧
    (∃ c, current pressed = some c ∧ c.isDragging = true) ∧
    "sphere" ≠ pressed.currentShape ∧
    pressed.momentumRef = ⟨0, 0⟩ ∧
    (step pressed (.selectShape "sphere")).momentumRef = ⟨0, 0⟩ := by
  have hc := current_of_cleanup pressed_cleanup pressed_closure
  have hs : "sphere" ≠ pressed.currentShape := by rw [pressed_currentShape]; decide
  obtain ⟨h0, _, _, _, _, _, _, _, _, _, _, _, _, _, _, _, h1, _⟩ :=
    shape_switch_during_drag pressed _ "sphere" reachable_pressed hc rfl hs
  exact ⟨reachable_pressed, ⟨_, hc, rfl⟩, hs, h0, h1⟩

/-- C5 at the mounted component: `handleResize` leaves momentum and cached delta. -/
theorem resize_frame_condition_witness :
    (∃ c, mounted.closures[0]? = some c) ∧
    (handleResize 0 mounted).momentumRef = mounted.momentumRef ∧
    (handleResize 0 mounted).lastDeltaRef = mounted.lastDeltaRef :=
  have h := resize_frame_condition mounted 0 _ 1024 768 mounted_closure
  ⟨⟨_, mounted_closure⟩, h.2.1, h.2.2.1⟩

/-- C6 at the mounted and at the pressed component: a move while idle leaves the
momentum, and so does a frame while dragging. -/
theorem manipulation_excludes_inertia_witness :
    (∃ c, mounted.closures[0]? = some c ∧ c.isDragging = false) ∧
    (handleMouseMove 0 ⟨10, 20⟩ mounted).momentumRef = mounted.momentumRef ∧
    (∃ c, pressed.closures[0]? = some c ∧ c.isDragging = true) ∧
    (animate 0 pressed).momentumRef = pressed.momentumRef :=
  ⟨⟨_, mounted_closure, rfl⟩,
    ((manipulation_excludes_inertia mounted 0 _ ⟨10, 20⟩ mounted_closure).2.2.1 rfl).1,
    ⟨_, pressed_closure, rfl⟩,
    (manipulation_excludes_inertia pressed 0 _ ⟨10, 20⟩ pressed_closure).2.2.2.2.2 rfl⟩

/-- C7 at the mounted component: it is tidy, and is after the torus is selected. -/
theorem teardown_leaves_nothing_witness :
    Reachable mounted ∧ mounted.THREE = true ∧
    Tidy mounted ∧ Tidy (run mounted [.selectShape "torus"]) :=
  have ht : mounted.THREE = true := by rw [mounted, mount_eq]
  ⟨reachable_mounted, ht,
    (teardown_leaves_nothing mounted true [.selectShape "torus"] reachable_mounted ht).2⟩

/-- C8 at a name that is no button: the box. -/
theorem shape_selection_witness :
    createGeometry "pyramid" = .BoxGeometry 2 2 2 :=
  (shape_selection "pyramid").2.2.2 (by decide) (by decide) (by decide) (by decide)
    (by decide)

/-- C9 at the released component: a click without movement leaves a momentum that is
not `(0, 0)`. -/
theorem stale_release_delta_witness :
    (∃ c, released.closures[0]? = some c) ∧
    released.lastDeltaRef ≠ ⟨0, 0⟩ ∧
    (handleMouseUp 0 (handleMouseDown 0 released)).momentumRef ≠ ⟨0, 0⟩ :=
  have hl : released.lastDeltaRef ≠ ⟨0, 0⟩ := by rw [released_eq]; simp
  ⟨⟨_, released_closure⟩, hl,
    (stale_release_delta released 0 _ ⟨0, 0⟩ ⟨0, 0⟩ ⟨0, 0⟩ ⟨0, 0⟩ ⟨0, 0⟩ "cube" 800 600
      released_closure).2.2.2.2.2.2.2.2.1 hl⟩

/-- C10 at the released component: after the cone is selected the momentum is `0.99`
times what it was. -/
theorem momentum_survives_shape_change_witness :
    Reachable released ∧
    (∃ c, current released = some c) ∧
    "cone" ≠ released.currentShape ∧
    (step released (.selectShape "cone")).momentumRef =
      ⟨0.99 * released.momentumRef.x, 0.99 * released.momentumRef.y⟩ := by
  have hc := current_of_cleanup released_cleanup released_closure
  have hs : "cone" ≠ released.currentShape := by rw [released_eq]; decide
  obtain ⟨_, _, _, _, _, _, _, _, _, _, _, _, _, _, _, _, h, _⟩ :=
    momentum_survives_shape_change released _ "cone" reachable_released hc hs
  exact ⟨reachable_released, ⟨_, hc⟩, hs, h⟩

end Scene
